import Mathlib

/-!
# Verification of the PyCanZE UDS client engine

A shallow embedding of `pycanze/uds.py` (class `UDSClient`): the hex line
parser, the big-endian bit extractor, the ISO-TP reassembler inside
`_read_by_id`, the flow-control retry, the 0x21 response cache, frame
selection, session bring-up, the TesterPresent keep-alive, and the
`read_field` pipeline.  Time is modelled as an explicit rational clock;
the adapter transport is modelled as a script of read results, each read
consuming one script entry and advancing the clock.
-/

/-- Hex digit characters, uppercase (the Python code tests
`ch.upper() in "0123456789ABCDEF"`). -/
def hexDigits : List Char := "0123456789ABCDEF".data

/-- Whether a character is a hex digit (case-insensitive), as in
`_only_hex_bytes`. -/
def is_hex_char (c : Char) : Bool := hexDigits.contains c.toUpper

/-- Numeric value of a hex digit, case-insensitive (`int(s, 16)` on a
single digit). -/
def hexVal (c : Char) : Nat :=
  if c.isDigit then c.toNat - '0'.toNat
  else c.toUpper.toNat - 'A'.toNat + 10

/-- `int(only_hex[i:i+2], 16)` over `range(0, len, 2)`: pairs of hex digits
become bytes; a trailing lone digit is parsed as a one-digit hex number. -/
def pairBytes : List Char → List Nat
  | [] => []
  | [c] => [hexVal c]
  | c1 :: c2 :: r => (16 * hexVal c1 + hexVal c2) :: pairBytes r

/-- Python `str.upper()` (ASCII), character by character. -/
def strUpper (s : String) : String := String.mk (s.data.map Char.toUpper)

/-- Python `str.startswith(pre)`. -/
def strStartsWith (s pre : String) : Bool := pre.data.isPrefixOf s.data

/-- Boolean substring test on character lists (Python `pat in s`). -/
def containsChars (pat : List Char) : List Char → Bool
  | [] => pat.isEmpty
  | c :: r => pat.isPrefixOf (c :: r) || containsChars pat r

/-- Boolean substring test on strings (Python `pat in s`). -/
def containsStr (s pat : String) : Bool := containsChars pat.data s.data

/-- The adapter status tokens filtered by `_only_hex_bytes`. -/
def statusTokens : List String := ["NO DATA", "ERROR", "SEARCHING", "BUS INIT", "CAN ERROR"]

/-- Whether a line carries one of the status tokens
(`any(k in up for k in [...])` on the uppercased line). -/
def lineHasToken (ln : String) : Bool := statusTokens.any (fun k => containsStr (strUpper ln) k)

/-- Bytes contributed by one response line in `_only_hex_bytes`: status
lines contribute nothing, otherwise non-hex characters are removed and the
residue is parsed two digits at a time. -/
def line_bytes (ln : String) : List Nat :=
  if lineHasToken ln then [] else pairBytes (ln.data.filter is_hex_char)

/-- `UDSClient._only_hex_bytes`: flat byte stream over all lines. -/
def only_hex_bytes (lines : List String) : List Nat := lines.flatMap line_bytes

/-- `int.from_bytes(data, "big")`. -/
def int_from_bytes_be (data : List Nat) : Nat := data.foldl (fun a b => a * 256 + b) 0

/-- `UDSClient._extract_bits`: big-endian bit numbering, bit 0 is the MSB
of byte 0. -/
def extract_bits (data : List Nat) (start_bit end_bit : Nat) : Nat :=
  let total_bits := data.length * 8
  let value := int_from_bytes_be data
  let shift := total_bits - end_bit - 1
  let mask := (1 <<< (end_bit - start_bit + 1)) - 1
  (value >>> shift) &&& mask

/-- Field descriptor: the parts of `models.Field` consumed by `read_field`.
`resolution` and `offset` are modelled as rationals (exact arithmetic). -/
structure FieldD where
  frame_id : Int
  start_bit : Nat
  end_bit : Nat
  resolution : ℚ
  offset : ℚ
  request_id : String
  deriving DecidableEq

/-- Outcome of the decode tail of `read_field` (lines 600-607 of uds.py):
`noneV` models `return None`, `exnB` models the `ValueError` raised by
`bytes(resp)` on an entry above 255. -/
inductive DecodeRes where
  | noneV
  | val (q : ℚ)
  | exnB
  deriving DecidableEq

/-- The decode tail of `read_field`: length check against `end_bit`, then
`offset + resolution * _extract_bits(bytes(resp), start_bit, end_bit)`. -/
def read_field_decode (resp : List Nat) (f : FieldD) : DecodeRes :=
  if resp = [] then .noneV
  else if resp.length * 8 ≤ f.end_bit then .noneV
  else if resp.any (fun x => 256 ≤ x) then .exnB
  else .val (f.offset + f.resolution * (extract_bits resp f.start_bit f.end_bit : ℚ))

/-- Status hints recorded in `last_status`. -/
inductive StatusHint where
  | canError
  | noData
  | elmError
  deriving DecidableEq

/-- Lines 374-381 of `_read_by_id`: detect ELM/CAN error statuses in the
uppercased lines; when no token matches, `last_status` is left unchanged. -/
def statusUpdate (cur : Option StatusHint) (lines : List String) : Option StatusHint :=
  let up := lines.map strUpper
  if up.any (fun ln => (containsStr ln "CAN" && containsStr ln "ERROR") || containsStr ln "CAN ERROR") then
    some .canError
  else if up.any (fun ln => containsStr ln "NO DATA") then some .noData
  else if up.any (fun ln => containsStr ln "ERROR") then some .elmError
  else cur

/-- Trace events: adapter commands sent (`_send`) and explicit sleeps.
Durations are integer microseconds; every timing constant in the source
(0.12 s, 0.05 s, 2.5 s, 1.2 s, 1.5 s, 1 s, and the ms-to-s conversions)
is an exact number of microseconds. -/
inductive Ev where
  | send (c : String)
  | sleep (q : ℤ)
  deriving DecidableEq

/-- One scripted transport read: either lines arrive after `dt` seconds, or
the read times out (raises) after `dt` seconds. -/
inductive ReadEv where
  | lines (ls : List String) (dt : ℤ)
  | timeout (dt : ℤ)
  deriving DecidableEq

/-- Elapsed time of a scripted read (microseconds). -/
def ReadEv.dt : ReadEv → ℤ
  | .lines _ dt => dt
  | .timeout dt => dt

/-- `ELM_CMD_SLEEP = 0.12` seconds, in microseconds: the post-send sleep
inside `_send`. -/
def elmCmdSleep : ℤ := 120000

/-- Engine state: the mutable scalar fields of `UDSClient` used on the
request path, plus the explicit clock `now`. -/
structure UdsState where
  now : ℤ
  sock_connected : Bool
  current_req_id : Option Int
  just_switched : Bool
  delay_before_21_ms : ℤ
  header_settle_ms : ℤ
  use_mask_filter : Bool
  fc_retry_enabled : Bool
  fc_retry_active : Bool
  isotp_collect_timeout_s : ℤ
  cf_read_timeout_s : ℤ
  last_tuple : Option (Int × Nat × Nat)
  last_resp : Option (List Nat)
  last_resp_ts : ℤ
  last_status : Option StatusHint
  last_tp : ℤ
  tp_interval : ℤ
  session_started : List Int
  session_required_by_req : List (Int × Bool)
  ecu_by_can : List (Int × (Int × Int))
  first_21_delay_by_req : List (Int × ℤ)
  fields : List (String × FieldD)
  deriving DecidableEq

/-- Digit accumulator for `toHexUpper`; the fuel always dominates the
number of remaining divisions by 16, so the zero-fuel branch is dead. -/
def toHexUpperGo : Nat → Nat → List Char → List Char
  | 0, n, acc => hexDigits.getD (n % 16) '0' :: acc
  | fuel + 1, n, acc =>
    if n < 16 then hexDigits.getD n '0' :: acc
    else toHexUpperGo fuel (n / 16) (hexDigits.getD (n % 16) '0' :: acc)

/-- Uppercase hex digits of `n` (no padding), as produced by `f"{n:X}"`. -/
def toHexUpper (n : Nat) : List Char := toHexUpperGo n n []

/-- `f"{n:0wX}"`: uppercase hex, zero-padded to at least `w` digits. -/
def hexPad (w n : Nat) : String :=
  let ds := toHexUpper n
  String.mk (List.replicate (w - ds.length) '0' ++ ds)

/-- Request command string built by `_read_by_id` (lines 343-350):
`03 SS HI LO` for a 16-bit identifier, `02 SS II` for an 8-bit one;
any other identifier length raises `ValueError` (`none`). -/
def buildCmd (service ident il : Nat) : Option String :=
  if il = 2 then
    some ("03" ++ hexPad 2 service ++ hexPad 2 ((ident >>> 8) &&& 0xFF) ++ hexPad 2 (ident &&& 0xFF))
  else if il = 1 then
    some ("02" ++ hexPad 2 service ++ hexPad 2 (ident &&& 0xFF))
  else none

/-- Lines 354-362: optional one-shot sleep before the first 0x21 after a
header switch; clears the `just_switched` flag. -/
def delay21 (s : UdsState) (service : Nat) : UdsState × List Ev :=
  if service = 0x21 ∧ s.just_switched = true ∧ 0 < s.delay_before_21_ms then
    ({s with now := s.now + s.delay_before_21_ms * 1000, just_switched := false},
     [Ev.sleep (s.delay_before_21_ms * 1000)])
  else (s, [])

/-- Lines 364-371: the short-lived 0x21 response cache condition. -/
def cache_hit (s : UdsState) (service ident : Nat) : Bool :=
  match s.current_req_id, s.last_tuple, s.last_resp with
  | some r, some t, some _ =>
    service == 0x21 && t == (r, service, ident) && decide (s.now - s.last_resp_ts < 1000000)
  | _, _, _ => false

/-- Lines 421-427 and 483-487: on a positive response, clear `last_status`
and, for service 0x21 with a selected request id, populate the cache. -/
def accept_resp (s : UdsState) (service ident : Nat) (out : List Nat) : UdsState :=
  let s1 := {s with last_status := none}
  match s.current_req_id with
  | some r =>
    if service = 0x21 then
      {s1 with last_tuple := some (r, service, ident), last_resp := some out,
               last_resp_ts := s.now}
    else s1
  | none => s1

/-- Inner scan of one parsed chunk `bb` in the Consecutive-Frame collection
loop (lines 405-418): walk the bytes; a CF PCI (high nibble 2) must carry
the expected sequence number modulo 16 (else `none`, the sequence error),
then up to `min(7, bytes after the PCI, bytes still missing)` payload bytes
are appended; other bytes are skipped one at a time. -/
def scan_cfs_go : Nat → Nat → List Nat → Nat → List Nat → Option (List Nat × Nat)
  | _, _, [], esn, col => some (col, esn)
  | 0, _, _ :: _, esn, col => some (col, esn)
  | fuel + 1, tl, pci :: rest, esn, col =>
    if pci >>> 4 = 0x2 then
      if pci &&& 0xF ≠ esn &&& 0xF then none
      else
        let tk := min 7 (min rest.length (tl - col.length))
        scan_cfs_go fuel tl (rest.drop tk) ((esn + 1) &&& 0xF) (col ++ rest.take tk)
    else scan_cfs_go fuel tl rest esn col

/-- Wrapper giving the scan enough fuel for the whole chunk (each step
consumes at least one byte, so the zero-fuel branch is dead). -/
def scan_cfs (tl : Nat) (bb : List Nat) (esn : Nat) (col : List Nat) :
    Option (List Nat × Nat) := scan_cfs_go bb.length tl bb esn col

/-- Result of the CF collection loop: a sequence error (`return None`), or
normal exit with the collected payload, next expected sequence number,
clock and remaining script. -/
inductive CollectRes where
  | seqErr (now : ℤ) (script : List ReadEv)
  | done (collected : List Nat) (esn : Nat) (now : ℤ) (script : List ReadEv)
  deriving DecidableEq

/-- The collection loop of lines 396-418: while the payload is incomplete
and the deadline has not passed, read more lines (a timeout or exhausted
script breaks the loop), parse them, and scan for Consecutive Frames. -/
def collect_go : Nat → Nat → ℤ → List Nat → Nat → ℤ → List ReadEv → CollectRes
  | 0, _, _, collected, esn, now, script => .done collected esn now script
  | fuel + 1, tl, dl, collected, esn, now, script =>
    if collected.length < tl ∧ now < dl then
      match script with
      | [] => .done collected esn now []
      | .timeout dt :: rest => .done collected esn (now + dt) rest
      | .lines ls dt :: rest =>
        let now' := now + dt
        let bb := only_hex_bytes ls
        if bb = [] then collect_go fuel tl dl collected esn now' rest
        else
          match scan_cfs tl bb esn collected with
          | none => .seqErr now' rest
          | some (col', esn') => collect_go fuel tl dl col' esn' now' rest
    else .done collected esn now script

/-- The CF collection loop with fuel covering the script length (each
iteration consumes one read event; with an empty script both the loop body
and the zero-fuel branch end the loop at once, so they agree). -/
def collect_loop (tl : Nat) (dl : ℤ) (collected : List Nat) (esn : Nat) (now : ℤ)
    (script : List ReadEv) : CollectRes :=
  collect_go script.length tl dl collected esn now script

/-- First index `j' ≥ j` at which `b[j']` is `0x7F` or the positive
response SID (the inner `while` of lines 471-473); `b.length` if none. -/
def seg_end_go : Nat → List Nat → Nat → Nat → Nat
  | 0, _, _, j => j
  | fuel + 1, b, rsid, j =>
    if j < b.length then
      if b.getD j 0 = 0x7F ∨ b.getD j 0 = rsid then j else seg_end_go fuel b rsid (j + 1)
    else j

/-- First index `j' ≥ j` at which `b[j']` is `0x7F` or the positive
response SID (the inner `while` of lines 471-473); `b.length` if none.
The fuel `b.length - j` exactly covers the remaining indices. -/
def seg_end (b : List Nat) (rsid j : Nat) : Nat := seg_end_go (b.length - j) b rsid j

/-- Result of the segment-concatenation scan: `panic` models the
`IndexError` raised on an empty byte stream, `neg` the negative-response
`return None`, `segs` the captured segments. -/
inductive SegRes where
  | panic
  | neg
  | segs (ss : List (List Nat))
  deriving DecidableEq

/-- The segment-concatenation scan of lines 458-477: abort on any `0x7F`
followed by two bytes; capture runs starting at the positive response SID
(checking the DID when `ident_len = 2` and two bytes follow); otherwise
advance one byte. -/
def seg_loop_go : Nat → List Nat → Nat → Nat → Nat → Nat → Nat → List (List Nat) → SegRes
  | 0, _, _, _, _, _, _, acc => .segs acc
  | fuel + 1, b, rsid, il, hi, lo, i, acc =>
    if i ≤ b.length - 2 then
      if b.length ≤ i then .panic
      else
        let bi := b.getD i 0
        if bi = 0x7F ∧ i + 2 < b.length then .neg
        else if bi = rsid then
          if il = 2 ∧ i + 2 < b.length ∧ (b.getD (i + 1) 0 ≠ hi ∨ b.getD (i + 2) 0 ≠ lo) then
            seg_loop_go fuel b rsid il hi lo (i + 1) acc
          else
            seg_loop_go fuel b rsid il hi lo (seg_end b rsid (i + 1))
              (acc ++ [(b.drop i).take (seg_end b rsid (i + 1) - i)])
        else seg_loop_go fuel b rsid il hi lo (i + 1) acc
    else .segs acc

/-- The segment scan with enough fuel for the remaining indices; the scan
position advances by at least one per step, so the zero-fuel branch is
only reached past the loop bound. -/
def seg_loop (b : List Nat) (rsid il hi lo i : Nat) (acc : List (List Nat)) : SegRes :=
  seg_loop_go (b.length + 1 - i) b rsid il hi lo i acc

/-- Result of `_read_by_id`: `ok` wraps the returned optional byte list,
final state, remaining script and the trace of sent commands/sleeps;
`err` models the `ValueError` for an unsupported identifier length;
`exn` models an exception escaping the call (transport failure on the
first read, or the `IndexError` of the segment scan on an empty stream). -/
inductive RbiOut where
  | ok (res : Option (List Nat)) (s : UdsState) (script : List ReadEv) (tr : List Ev)
  | err
  | exn (s : UdsState) (script : List ReadEv) (tr : List Ev)
  deriving DecidableEq

/-- Trace component of a `_read_by_id` outcome. -/
def rbiTrace : RbiOut → List Ev
  | .ok _ _ _ tr => tr
  | .err => []
  | .exn _ _ tr => tr

/-- Result component of a `_read_by_id` outcome (`none` when the call did
not return normally). -/
def rbiResult : RbiOut → Option (Option (List Nat))
  | .ok r _ _ _ => some r
  | .err => none
  | .exn _ _ _ => none

/-- State component of a `_read_by_id` outcome. -/
def rbiState : RbiOut → Option UdsState
  | .ok _ s _ _ => some s
  | .err => none
  | .exn s _ _ => some s

/-- Script component of a `_read_by_id` outcome. -/
def rbiScript : RbiOut → List ReadEv
  | .ok _ _ r _ => r
  | .err => []
  | .exn _ r _ => r

/-- One `try: send; read except: pass` step of the flow-control reassert
loop (lines 437-442): elapsed time of the consumed read, if any. -/
def read_consume : List ReadEv → ℤ × List ReadEv
  | [] => (0, [])
  | e :: r => (e.dt, r)

/-- Script remaining after the three reasserted flow-control commands
(`ATCFC1`, `ATFCSD 300005`, `ATAL`), each consuming one read result. -/
def fc_reassert_script (script : List ReadEv) : List ReadEv :=
  (read_consume (read_consume (read_consume script).2).2).2

/-- Clock after the three reasserted flow-control commands. -/
def fc_reassert_now (now : ℤ) (script : List ReadEv) : ℤ :=
  let (d1, s1) := read_consume script
  let (d2, s2) := read_consume s1
  let (d3, _) := read_consume s2
  now + 3 * elmCmdSleep + d1 + d2 + d3

/-- Trace of the flow-control reassert sequence. -/
def fcTrace : List Ev := [Ev.send "ATCFC1", Ev.send "ATFCSD 300005", Ev.send "ATAL"]

/-- State entering the flow-control retry call after a First Frame line and
a timed-out Consecutive-Frame read: the post-line state with the clock
advanced by the reassert sequence and the 50 ms sleep, and the retry flag
set. -/
def fc_retry_inner_state (s : UdsState) (service : Nat) (ffls : List String)
    (dt0 dt1 : ℤ) (rest : List ReadEv) : UdsState :=
  let s1 := (delay21 s service).1
  let s2 := {s1 with now := s1.now + elmCmdSleep}
  let s3 := {s2 with now := s2.now + dt0, last_status := statusUpdate s2.last_status ffls}
  let sL := {s3 with now := s3.now + dt1}
  {sL with now := fc_reassert_now sL.now rest + 50000, fc_retry_active := true}

/-- `UDSClient._read_by_id`, with explicit fuel bounding the (flag-guarded)
flow-control retry recursion.  Mirrors lines 334-489: build the request,
optional pre-0x21 delay, 0x21 cache lookup, transmit, status detection,
hex parse, then either First-Frame reassembly (with sequence checking,
acceptance, and one flow-control reassert retry) or the
segment-concatenation fallback with negative-response detection. -/
def read_by_id : Nat → UdsState → List ReadEv → Nat → Nat → Nat → RbiOut
  | fuel, s, script, service, ident, il =>
    match buildCmd service ident il with
    | none => .err
    | some cmd =>
      let p := delay21 s service
      let s1 := p.1
      let tr1 := p.2
      if cache_hit s1 service ident then .ok s1.last_resp s1 script tr1
      else
        let s2 := {s1 with now := s1.now + elmCmdSleep}
        let tr2 := tr1 ++ [Ev.send cmd]
        match script with
        | [] => .exn s2 [] tr2
        | .timeout dt :: rest => .exn {s2 with now := s2.now + dt} rest tr2
        | .lines ls dt :: rest =>
          let s3 := {s2 with now := s2.now + dt, last_status := statusUpdate s2.last_status ls}
          let b := only_hex_bytes ls
          let rsid := (service + 0x40) &&& 0xFF
          if 3 ≤ b.length ∧ b.getD 0 0 >>> 4 = 0x1 then
            let tl := ((b.getD 0 0 &&& 0xF) <<< 8) ||| (b.getD 1 0 &&& 0xFF)
            let t : ℤ := if s3.isotp_collect_timeout_s = (0 : ℤ) then 2500000 else s3.isotp_collect_timeout_s
            match collect_loop tl (s3.now + t) (b.drop 2) 1 s3.now rest with
            | .seqErr now' script' => .ok none {s3 with now := now'} script' tr2
            | .done collected _ now' script' =>
              let sL : UdsState := {s3 with now := now'}
              let out := collected.take tl
              if out ≠ [] ∧ out.getD 0 0 = rsid ∧ tl ≤ out.length then
                .ok (some out) (accept_resp sL service ident out) script' tr2
              else if collected.length < tl ∧ sL.fc_retry_enabled = true ∧ sL.fc_retry_active = false then
                match fuel with
                | 0 => .err
                | fuel' + 1 =>
                  let nR : ℤ := fc_reassert_now sL.now script' + 50000
                  let sR : UdsState := {sL with now := nR, fc_retry_active := true}
                  match read_by_id fuel' sR (fc_reassert_script script') service ident il with
                  | .ok res s' r' tr' =>
                    .ok res {s' with fc_retry_active := false} r'
                      (tr2 ++ fcTrace ++ [Ev.sleep 50000] ++ tr')
                  | .exn s' r' tr' =>
                    .exn {s' with fc_retry_active := false} r'
                      (tr2 ++ fcTrace ++ [Ev.sleep 50000] ++ tr')
                  | .err => .err
              else .ok none sL script' tr2
          else
            match seg_loop b rsid il ((ident >>> 8) &&& 0xFF) (ident &&& 0xFF) 0 [] with
            | .panic => .exn s3 rest tr2
            | .neg => .ok none s3 rest tr2
            | .segs ss =>
              if ss ≠ [] then
                let out := ss.flatten
                .ok (some out) (accept_resp s3 service ident out) rest tr2
              else .ok none s3 rest tr2

/-- Common result shape for the helper phases: state, remaining script,
trace. -/
structure PhaseOut where
  s : UdsState
  script : List ReadEv
  tr : List Ev
  deriving DecidableEq

/-- Outcome of `_select_frame`: normal return or a raised exception
(transport failure, or the `RuntimeError` when not connected). -/
inductive SFOut where
  | ok (o : PhaseOut)
  | exn (o : PhaseOut)
  deriving DecidableEq

/-- One `send` + `read` pair whose response content is ignored
(as in `_select_frame`); a timed-out or exhausted read raises. -/
def sr_step (o : PhaseOut) (cmd : String) : SFOut :=
  let s' := {o.s with now := o.s.now + elmCmdSleep}
  let tr' := o.tr ++ [Ev.send cmd]
  match o.script with
  | [] => .exn ⟨s', [], tr'⟩
  | .timeout dt :: r => .exn ⟨{s' with now := s'.now + dt}, r, tr'⟩
  | .lines _ dt :: r => .ok ⟨{s' with now := s'.now + dt}, r, tr'⟩

/-- `UDSClient._pair_for_frame` (lines 101-119): direct lookup in the ECU
map, then search by response id, then the `req = resp - 8` heuristic. -/
def pair_for_frame (s : UdsState) (fid0 : Int) : Int × Int :=
  let fid := Int.land fid0 0x7FF
  match s.ecu_by_can.lookup fid with
  | some pr => pr
  | none =>
    match s.ecu_by_can.find? (fun kv => kv.2.2 == fid) with
    | some kv => kv.2
    | none => (Int.land (fid - 0x8) 0x7FF, fid)

/-- `UDSClient._select_frame` (lines 492-539): ignore out-of-range ids,
require a connection, return if already selected, otherwise program
headers and filter, mark `just_switched`, and apply the per-ECU first-0x21
delay override. -/
def select_frame (s : UdsState) (script : List ReadEv) (req_id : Int) (resp_id : Option Int) :
    SFOut :=
  if req_id ≤ 0 ∨ 0x7FF < req_id then .ok ⟨s, script, []⟩
  else if s.sock_connected = false then .exn ⟨s, script, []⟩
  else if s.current_req_id = some req_id then .ok ⟨s, script, []⟩
  else
    let rid := hexPad 3 (Int.land req_id 0x7FF).toNat
    let resp := hexPad 3 ((Int.land (resp_id.getD (req_id + 0x8)) 0x7FF).toNat)
    match sr_step ⟨s, script, []⟩ ("ATSH" ++ rid) with
    | .exn o => .exn o
    | .ok o1 =>
      match sr_step o1 ("ATFCSH" ++ rid) with
      | .exn o => .exn o
      | .ok o2 =>
        let o3r :=
          if s.use_mask_filter then
            match sr_step o2 ("ATCF " ++ resp) with
            | .exn o => SFOut.exn o
            | .ok oa => sr_step oa "ATCM 7FF"
          else sr_step o2 ("ATCRA " ++ resp)
        match o3r with
        | .exn o => .exn o
        | .ok o3 =>
          let sA := {o3.s with current_req_id := some req_id}
          let settle := (0 : ℤ) < sA.header_settle_ms
          let sB := if settle then {sA with now := sA.now + sA.header_settle_ms * 1000} else sA
          let trB := if settle then o3.tr ++ [Ev.sleep (sA.header_settle_ms * 1000)] else o3.tr
          let sC := {sB with just_switched := true}
          let sD :=
            match sC.first_21_delay_by_req.lookup req_id with
            | some d => {sC with delay_before_21_ms := d}
            | none => sC
          .ok ⟨sD, o3.script, trB⟩

/-- The four session modes tried by `_ensure_session` with their expected
positive-response markers. -/
def sessionModes : List (String × String) :=
  [("0210C0", "50C0"), ("0210F2", "50F2"), ("0210F3", "50F3"), ("021081", "5081")]

/-- Uppercase a line and remove every space (`ln.upper().replace(" ", "")`). -/
def norm_line (ln : String) : String := String.mk ((strUpper ln).data.filter (fun c => c ≠ ' '))

/-- The mode cascade of `_ensure_session` (lines 134-140); every transport
failure is swallowed by the surrounding `except` and simply stops the
cascade. -/
def ensure_loop (s : UdsState) (script : List ReadEv) (tr : List Ev) (req : Int) :
    List (String × String) → PhaseOut
  | [] => ⟨s, script, tr⟩
  | (mode, expect) :: rest =>
    let s' := {s with now := s.now + elmCmdSleep}
    let tr' := tr ++ [Ev.send mode]
    match script with
    | [] => ⟨s', [], tr'⟩
    | .timeout dt :: r => ⟨{s' with now := s'.now + dt}, r, tr'⟩
    | .lines ls dt :: r =>
      let s'' := {s' with now := s'.now + dt}
      if ls.any (fun ln => containsStr (norm_line ln) expect) then
        ⟨{s'' with session_started := req :: s''.session_started}, r, tr'⟩
      else ensure_loop s'' r tr' req rest

/-- `UDSClient._ensure_session` (lines 122-143): best-effort session
bring-up, skipped when not required (unless forced) or already started. -/
def ensure_session (s : UdsState) (script : List ReadEv) (req : Int) (force : Bool) : PhaseOut :=
  if force = false ∧ (s.session_required_by_req.lookup req).getD false = false then ⟨s, script, []⟩
  else if req ∈ s.session_started then ⟨s, script, []⟩
  else ensure_loop s script [] req sessionModes

/-- The `try`-guarded ECU selection phase of `read_field` (lines 585-592):
resolve the pair, select the frame, bring up the session; any exception is
caught and the current header kept. -/
def select_ensure_phase (s : UdsState) (script : List ReadEv) (f : FieldD) : PhaseOut :=
  let fid := Int.land f.frame_id 0x7FF
  let pr := pair_for_frame s fid
  match select_frame s script pr.1 (some pr.2) with
  | .exn o => o
  | .ok o =>
    let o2 := ensure_session o.s o.script pr.1 false
    ⟨o2.s, o2.script, o.tr ++ o2.tr⟩

/-- `UDSClient._tester_present` (lines 145-155): when `tp_interval` has
elapsed, send `0x3E 0x00` and discard the response; all failures are
swallowed, and `last_tp` is only updated when the read succeeds. -/
def tester_present (s : UdsState) (script : List ReadEv) : PhaseOut :=
  if s.now - s.last_tp < s.tp_interval then ⟨s, script, []⟩
  else
    let s1 := {s with now := s.now + elmCmdSleep}
    let tr := [Ev.send "023E00"]
    match script with
    | [] => ⟨s1, [], tr⟩
    | .timeout dt :: r => ⟨{s1 with now := s1.now + dt}, r, tr⟩
    | .lines _ dt :: r => ⟨{s1 with now := s1.now + dt, last_tp := s.now}, r, tr⟩

/-- `int(str, 16)`: `none` models the `ValueError` on an empty or non-hex
string. -/
def parseHexString (str : String) : Option Nat :=
  if str.data.isEmpty then none
  else if str.data.all is_hex_char then
    some (str.data.foldl (fun a c => a * 16 + hexVal c) 0)
  else none

/-- Outcome of `read_field`: a decoded optional value with final state,
remaining script and trace, or a raised exception (`KeyError`,
`ValueError`, or a transport error escaping `_read_by_id`). -/
inductive RFOut where
  | ok (v : Option ℚ) (s : UdsState) (script : List ReadEv) (tr : List Ev)
  | raised
  deriving DecidableEq

/-- Trace component of a `read_field` outcome. -/
def rfTrace : RFOut → List Ev
  | .ok _ _ _ tr => tr
  | .raised => []

/-- Value component of a `read_field` outcome. -/
def rfValue : RFOut → Option (Option ℚ)
  | .ok v _ _ _ => some v
  | .raised => none

/-- `UDSClient.read_field` (lines 570-607): look up the field, check the
service prefix, select the ECU, issue the UDS read, schedule the
TesterPresent keep-alive, then decode the bit range. -/
def read_field (fuel : Nat) (s : UdsState) (script : List ReadEv) (sid : String) : RFOut :=
  match s.fields.lookup sid with
  | none => .raised
  | some f =>
    if f.request_id = "" then .raised
    else
      let rid := strUpper f.request_id
      if (strStartsWith rid "22" || strStartsWith rid "21") = false then .raised
      else
        let ph := select_ensure_phase s script f
        match parseHexString (String.mk (rid.data.take 2)),
              parseHexString (String.mk (rid.data.drop 2)) with
        | some service, some ident =>
          let il := if (rid.data.drop 2).length = 4 then 2 else 1
          match read_by_id fuel ph.s ph.script service ident il with
          | .err => .raised
          | .exn _ _ _ => .raised
          | .ok res sB scrB trB =>
            let tp := tester_present sB scrB
            let tr := ph.tr ++ trB ++ tp.tr
            match res with
            | none => .ok none tp.s tp.script tr
            | some r =>
              match read_field_decode r f with
              | .noneV => .ok none tp.s tp.script tr
              | .val q => .ok (some q) tp.s tp.script tr
              | .exnB => .raised
        | _, _ => .raised

/-- Number of `ATCFC1` sends in a trace (used to count flow-control
reasserts). -/
def countFC (tr : List Ev) : Nat := (tr.filter (fun e => e == Ev.send "ATCFC1")).length

/-- A well-formed run of Consecutive-Frame read events: each event delivers
one CF line carrying the expected sequence number (starting from `e`,
advancing modulo 16) and a payload chunk of 1 to 7 bytes, with no elapsed
time. -/
def goodCFs : Nat → List ReadEv → List (List Nat) → Bool
  | _, [], [] => true
  | e, ReadEv.lines ls dt :: evs, c :: cs =>
      decide (dt = 0) && decide (only_hex_bytes ls = (0x20 ||| (e &&& 0xF)) :: c) &&
      decide (1 ≤ c.length) && decide (c.length ≤ 7) && goodCFs ((e + 1) &&& 0xF) evs cs
  | _, _, _ => false

/-- Expected sequence number after `k` Consecutive Frames starting from
`e` (the loop advances with `(esn + 1) &&& 0xF`). -/
def esnAfter (e : Nat) : Nat → Nat
  | 0 => e
  | k + 1 => esnAfter ((e + 1) &&& 0xF) k

/-- Declared ISO-TP total length of a First Frame byte stream. -/
def ffTotalLen (b : List Nat) : Nat := ((b.getD 0 0 &&& 0xF) <<< 8) ||| (b.getD 1 0 &&& 0xFF)

/-- A concrete baseline engine state used by the witnesses: connected,
EVC header selected, empty cache, default tunables. -/
def sWit : UdsState where
  now := 100000000
  sock_connected := true
  current_req_id := some 0x7E4
  just_switched := false
  delay_before_21_ms := 0
  header_settle_ms := 0
  use_mask_filter := false
  fc_retry_enabled := true
  fc_retry_active := false
  isotp_collect_timeout_s := 2500000
  cf_read_timeout_s := 1200000
  last_tuple := none
  last_resp := none
  last_resp_ts := 0
  last_status := none
  last_tp := 0
  tp_interval := 1500000
  session_started := []
  session_required_by_req := []
  ecu_by_can := []
  first_21_delay_by_req := []
  fields := [("f1", ⟨0x7EC, 8, 15, 1, 0, "2101"⟩)]

/-- The field used by the concrete `read_field` scenarios: service 0x21,
local identifier 1, bits 8-15 of the response, unit scaling. -/
def fld21 : FieldD := ⟨0x7EC, 8, 15, 1, 0, "2101"⟩

/-- `sWit` with a fresh cached 0x21 response for local identifier 1. -/
def sCache : UdsState :=
  {sWit with
    last_tuple := some (0x7E4, 0x21, 1)
    last_resp := some [0x61, 1, 9]
    last_resp_ts := 100000000}

/-! ## Parser characterization lemmas -/

theorem pairBytes_length : ∀ cs : List Char, (pairBytes cs).length = (cs.length + 1) / 2
  | [] => rfl
  | [_] => by simp [pairBytes]
  | c1 :: c2 :: r => by
    simp only [pairBytes, List.length_cons, pairBytes_length r]
    omega

theorem pairBytes_get : ∀ (cs : List Char) (i : Nat), 2 * i + 1 < cs.length →
    (pairBytes cs).get? i =
      some (16 * hexVal (cs.getD (2 * i) '0') + hexVal (cs.getD (2 * i + 1) '0'))
  | [], i, h => by simp at h
  | [_], i, h => by simp only [List.length_singleton] at h; omega
  | c1 :: c2 :: r, 0, _ => by simp [pairBytes]
  | c1 :: c2 :: r, (i + 1), h => by
    have hr : 2 * i + 1 < r.length := by
      simp only [List.length_cons] at h; omega
    have ih := pairBytes_get r i hr
    have h1 : 2 * (i + 1) = 2 * i + 1 + 1 := by omega
    have h2 : 2 * (i + 1) + 1 = 2 * i + 1 + 1 + 1 := by omega
    simp only [pairBytes, List.get?_cons_succ, ih, h1, h2, List.getD_cons_succ]

theorem pairBytes_last : ∀ cs : List Char, cs.length % 2 = 1 →
    (pairBytes cs).getLast? = some (hexVal (cs.getD (cs.length - 1) '0'))
  | [], h => by simp at h
  | [_], _ => rfl
  | c1 :: c2 :: r, h => by
    have hr : r.length % 2 = 1 := by simp only [List.length_cons] at h; omega
    have ih := pairBytes_last r hr
    have hne : pairBytes r ≠ [] := by
      intro he
      have hl := pairBytes_length r
      rw [he] at hl
      simp only [List.length_nil] at hl
      omega
    obtain ⟨m, hm⟩ : ∃ m, r.length = m + 1 := ⟨r.length - 1, by omega⟩
    have hpb : pairBytes (c1 :: c2 :: r) = (16 * hexVal c1 + hexVal c2) :: pairBytes r := by
      simp [pairBytes]
    obtain ⟨x, xs, hx⟩ := List.exists_cons_of_ne_nil hne
    rw [hpb, hx, List.getLast?_cons_cons, ← hx, ih]
    congr 2
    simp only [List.length_cons]
    rw [show r.length + 1 + 1 - 1 = r.length + 1 from by omega, hm,
      List.getD_cons_succ, List.getD_cons_succ]
    simp

/-! ## Claim theorems -/

/-- C1: for a response byte stream `data` of length `L` and a field with
`start_bit ≤ end_bit < 8 L`, the decode tail of `read_field` returns
`offset + resolution * raw` with
`raw = (big_endian(data) >> (8 L - end_bit - 1)) & ((1 << (end_bit - start_bit + 1)) - 1)`;
when `8 L ≤ end_bit` it returns `None`. -/
theorem C1_read_field_decode (data : List Nat) (f : FieldD)
    (hb : ∀ x ∈ data, x < 256) :
    (f.start_bit ≤ f.end_bit → f.end_bit < 8 * data.length →
      read_field_decode data f = DecodeRes.val (f.offset + f.resolution *
        (((int_from_bytes_be data >>> (8 * data.length - f.end_bit - 1)) &&&
          ((1 <<< (f.end_bit - f.start_bit + 1)) - 1) : Nat) : ℚ)))
    ∧ (8 * data.length ≤ f.end_bit → read_field_decode data f = DecodeRes.noneV) := by
  constructor
  · intro _hse hlt
    have hne : data ≠ [] := by
      intro h
      subst h
      simp only [List.length_nil, Nat.mul_zero] at hlt
      omega
    have hany : data.any (fun x => decide (256 ≤ x)) = false := by
      rw [List.any_eq_false]
      intro x hx
      simp only [decide_eq_true_eq, not_le]
      exact hb x hx
    unfold read_field_decode
    rw [if_neg hne, if_neg (by omega)]
    rw [if_neg (by rw [hany]; exact Bool.false_ne_true)]
    unfold extract_bits
    have hc : data.length * 8 = 8 * data.length := by omega
    rw [hc]
  · intro h
    unfold read_field_decode
    rcases eq_or_ne data [] with he | hne
    · rw [if_pos he]
    · rw [if_neg hne, if_pos (by omega)]

theorem C1_read_field_decode_witness :
    (∀ x ∈ [0x62, 0x01, 0xA5], x < 256) ∧
    ((8 : Nat) ≤ 15 → 15 < 8 * [0x62, 0x01, 0xA5].length →
      read_field_decode [0x62, 0x01, 0xA5] fld21 = DecodeRes.val
        (fld21.offset + fld21.resolution *
          (((int_from_bytes_be [0x62, 0x01, 0xA5] >>> (8 * [0x62, 0x01, 0xA5].length - 15 - 1)) &&&
            ((1 <<< (15 - 8 + 1)) - 1) : Nat) : ℚ))) := by
  refine ⟨by decide, ?_⟩
  have h := (C1_read_field_decode [0x62, 0x01, 0xA5] fld21 (by decide)).1
  exact fun _ _ => h (by decide) (by decide)

/-- C6 counterexample: on the status-free line `"ABC"` the parser emits the
trailing nibble as the byte `0x0C`; the claimed output `[0xAB]` (trailing
nibble discarded) is wrong. -/
theorem C6_counterexample :
    only_hex_bytes ["ABC"] = [0xAB, 0x0C] ∧ only_hex_bytes ["ABC"] ≠ [0xAB] := by
  constructor
  · decide
  · decide

/-- C6 (amended): for a line with no status token, the parser keeps exactly
the hex characters and emits one byte per consecutive two-digit pair, in
order; a trailing lone digit is not discarded but parsed as a one-digit
hex number and emitted as a final byte. -/
theorem C6_hex_line_parse (ln : String) (h : lineHasToken ln = false) :
    only_hex_bytes [ln] = pairBytes (ln.data.filter is_hex_char) ∧
    (pairBytes (ln.data.filter is_hex_char)).length =
      ((ln.data.filter is_hex_char).length + 1) / 2 ∧
    (∀ i, 2 * i + 1 < (ln.data.filter is_hex_char).length →
      (pairBytes (ln.data.filter is_hex_char)).get? i =
        some (16 * hexVal ((ln.data.filter is_hex_char).getD (2 * i) '0') +
              hexVal ((ln.data.filter is_hex_char).getD (2 * i + 1) '0'))) ∧
    ((ln.data.filter is_hex_char).length % 2 = 1 →
      (pairBytes (ln.data.filter is_hex_char)).getLast? =
        some (hexVal ((ln.data.filter is_hex_char).getD
          ((ln.data.filter is_hex_char).length - 1) '0'))) := by
  refine ⟨?_, pairBytes_length _, pairBytes_get _, pairBytes_last _⟩
  simp [only_hex_bytes, line_bytes, h]

theorem C6_hex_line_parse_witness :
    lineHasToken "6a 2F" = false ∧
    only_hex_bytes ["6a 2F"] = pairBytes ("6a 2F".data.filter is_hex_char) := by
  exact ⟨by decide, (C6_hex_line_parse "6a 2F" (by decide)).1⟩

/-- C10: `_select_frame` with a request id that is not a positive 11-bit
CAN id returns immediately: no adapter command is sent, no script entry is
consumed, and the engine state is unchanged, whatever `resp_id` and the
connection state. -/
theorem C10_select_frame_out_of_range (s : UdsState) (script : List ReadEv)
    (req_id : Int) (resp_id : Option Int) (h : req_id ≤ 0 ∨ 0x7FF < req_id) :
    select_frame s script req_id resp_id = SFOut.ok ⟨s, script, []⟩ := by
  unfold select_frame
  rw [if_pos h]

theorem C10_select_frame_out_of_range_witness :
    (((0 : Int) ≤ 0 ∨ (0x7FF : Int) < 0) ∧
      select_frame sWit [] 0 none = SFOut.ok ⟨sWit, [], []⟩) ∧
    (((0x800 : Int) ≤ 0 ∨ (0x7FF : Int) < 0x800) ∧
      select_frame sWit [] 0x800 (some 5) = SFOut.ok ⟨sWit, [], []⟩) :=
  ⟨⟨Or.inl le_rfl, C10_select_frame_out_of_range sWit [] 0 none (Or.inl le_rfl)⟩,
   ⟨Or.inr (by norm_num), C10_select_frame_out_of_range sWit [] 0x800 (some 5) (Or.inr (by norm_num))⟩⟩

/-! ## Segment-scan lemmas -/

theorem seg_end_go_ge : ∀ (fuel : Nat) (b : List Nat) (rsid j : Nat),
    j ≤ seg_end_go fuel b rsid j := by
  intro fuel
  induction fuel with
  | zero => intro b rsid j; exact le_rfl
  | succ n ih =>
    intro b rsid j
    unfold seg_end_go
    split
    · split
      · exact le_rfl
      · have := ih b rsid (j + 1); omega
    · exact le_rfl

theorem seg_end_ge (b : List Nat) (rsid j : Nat) : j ≤ seg_end b rsid j :=
  seg_end_go_ge (b.length - j) b rsid j

theorem seg_end_go_not_stop : ∀ (fuel : Nat) (b : List Nat) (rsid j k : Nat),
    j ≤ k → k < seg_end_go fuel b rsid j →
    b.getD k 0 ≠ 0x7F ∧ b.getD k 0 ≠ rsid := by
  intro fuel
  induction fuel with
  | zero => intro b rsid j k hjk hk; unfold seg_end_go at hk; omega
  | succ n ih =>
    intro b rsid j k hjk hk
    unfold seg_end_go at hk
    by_cases hj : j < b.length
    · rw [if_pos hj] at hk
      by_cases hstop : b.getD j 0 = 0x7F ∨ b.getD j 0 = rsid
      · rw [if_pos hstop] at hk; omega
      · rw [if_neg hstop] at hk
        rcases Nat.eq_or_lt_of_le hjk with he | hl
        · subst he; exact ⟨fun h => hstop (Or.inl h), fun h => hstop (Or.inr h)⟩
        · exact ih b rsid (j + 1) k hl hk
    · rw [if_neg hj] at hk; omega

theorem seg_end_not_stop (b : List Nat) (rsid j k : Nat) (hjk : j ≤ k)
    (hk : k < seg_end b rsid j) : b.getD k 0 ≠ 0x7F ∧ b.getD k 0 ≠ rsid :=
  seg_end_go_not_stop (b.length - j) b rsid j k hjk hk

theorem seg_loop_go_neg : ∀ (fuel : Nat) (b : List Nat) (rsid il hi lo i : Nat)
    (acc : List (List Nat)), b.length + 1 - i ≤ fuel →
    (∃ k, i ≤ k ∧ b.getD k 0 = 0x7F ∧ k + 2 < b.length) →
    seg_loop_go fuel b rsid il hi lo i acc = SegRes.neg := by
  intro fuel
  induction fuel with
  | zero =>
    rintro b rsid il hi lo i acc hm ⟨k, hik, hk7, hklen⟩
    omega
  | succ n ih =>
    rintro b rsid il hi lo i acc hm ⟨k, hik, hk7, hklen⟩
    have hilen : i < b.length := by omega
    unfold seg_loop_go
    rw [if_pos (by omega), if_neg (by omega)]
    by_cases h1 : b.getD i 0 = 0x7F ∧ i + 2 < b.length
    · rw [if_pos h1]
    · rw [if_neg h1]
      have hki : i + 1 ≤ k := by
        rcases Nat.eq_or_lt_of_le hik with he | hl
        · exfalso; exact h1 ⟨he ▸ hk7, by omega⟩
        · omega
      by_cases h2 : b.getD i 0 = rsid
      · rw [if_pos h2]
        by_cases h3 : il = 2 ∧ i + 2 < b.length ∧ (b.getD (i + 1) 0 ≠ hi ∨ b.getD (i + 2) 0 ≠ lo)
        · rw [if_pos h3]
          exact ih b rsid il hi lo (i + 1) acc (by omega) ⟨k, hki, hk7, hklen⟩
        · rw [if_neg h3]
          have hj1 : i + 1 ≤ seg_end b rsid (i + 1) := seg_end_ge b rsid (i + 1)
          have hkj : seg_end b rsid (i + 1) ≤ k := by
            by_contra hlt
            push_neg at hlt
            exact (seg_end_not_stop b rsid (i + 1) k hki hlt).1 hk7
          exact ih b rsid il hi lo (seg_end b rsid (i + 1)) _ (by omega) ⟨k, hkj, hk7, hklen⟩
      · rw [if_neg h2]
        exact ih b rsid il hi lo (i + 1) acc (by omega) ⟨k, hki, hk7, hklen⟩

theorem seg_loop_neg (b : List Nat) (rsid il hi lo i : Nat) (acc : List (List Nat))
    (h : ∃ k, i ≤ k ∧ b.getD k 0 = 0x7F ∧ k + 2 < b.length) :
    seg_loop b rsid il hi lo i acc = SegRes.neg :=
  seg_loop_go_neg (b.length + 1 - i) b rsid il hi lo i acc le_rfl h

theorem seg_loop_go_segs_head : ∀ (fuel : Nat) (b : List Nat) (rsid il hi lo i : Nat)
    (acc ss : List (List Nat)),
    seg_loop_go fuel b rsid il hi lo i acc = SegRes.segs ss →
    (∀ sg ∈ acc, ∃ t, sg = rsid :: t) →
    ∀ sg ∈ ss, ∃ t, sg = rsid :: t := by
  intro fuel
  induction fuel with
  | zero =>
    intro b rsid il hi lo i acc ss hsl hacc
    unfold seg_loop_go at hsl
    cases hsl
    exact hacc
  | succ n ih =>
    intro b rsid il hi lo i acc ss hsl hacc
    unfold seg_loop_go at hsl
    by_cases hc : i ≤ b.length - 2
    · rw [if_pos hc] at hsl
      by_cases hg : b.length ≤ i
      · rw [if_pos hg] at hsl
        exact absurd hsl (by simp)
      · rw [if_neg hg] at hsl
        simp only at hsl
        by_cases h1 : b.getD i 0 = 0x7F ∧ i + 2 < b.length
        · rw [if_pos h1] at hsl
          exact absurd hsl (by simp)
        · rw [if_neg h1] at hsl
          by_cases h2 : b.getD i 0 = rsid
          · rw [if_pos h2] at hsl
            by_cases h3 : il = 2 ∧ i + 2 < b.length ∧
                (b.getD (i + 1) 0 ≠ hi ∨ b.getD (i + 2) 0 ≠ lo)
            · rw [if_pos h3] at hsl
              exact ih b rsid il hi lo (i + 1) acc ss hsl hacc
            · rw [if_neg h3] at hsl
              have hj1 : i + 1 ≤ seg_end b rsid (i + 1) := seg_end_ge b rsid (i + 1)
              refine ih b rsid il hi lo (seg_end b rsid (i + 1)) _ ss hsl ?_
              intro sg hsg
              rcases List.mem_append.mp hsg with hin | hin
              · exact hacc sg hin
              · have hdrop : b.drop i = b.getD i 0 :: b.drop (i + 1) := by
                  rw [List.getD_eq_getElem?_getD, List.getElem?_eq_getElem (by omega)]
                  exact List.drop_eq_getElem_cons (by omega)
                rcases List.mem_singleton.mp hin with rfl
                rw [hdrop, h2]
                have hsp : seg_end b rsid (i + 1) - i = (seg_end b rsid (i + 1) - i - 1) + 1 := by
                  omega
                rw [hsp, List.take_succ_cons]
                exact ⟨_, rfl⟩
          · rw [if_neg h2] at hsl
            exact ih b rsid il hi lo (i + 1) acc ss hsl hacc
    · rw [if_neg hc] at hsl
      cases hsl
      exact hacc

theorem seg_loop_segs_head (b : List Nat) (rsid il hi lo i : Nat)
    (acc ss : List (List Nat)) (hsl : seg_loop b rsid il hi lo i acc = SegRes.segs ss)
    (hacc : ∀ sg ∈ acc, ∃ t, sg = rsid :: t) :
    ∀ sg ∈ ss, ∃ t, sg = rsid :: t :=
  seg_loop_go_segs_head (b.length + 1 - i) b rsid il hi lo i acc ss hsl hacc

/-! ## Small preservation lemmas -/

theorem delay21_preserves (s : UdsState) (service : Nat) :
    (delay21 s service).1.last_status = s.last_status ∧
    (delay21 s service).1.current_req_id = s.current_req_id ∧
    (delay21 s service).1.last_tuple = s.last_tuple ∧
    (delay21 s service).1.last_resp = s.last_resp ∧
    (delay21 s service).1.last_resp_ts = s.last_resp_ts ∧
    (delay21 s service).1.fc_retry_enabled = s.fc_retry_enabled ∧
    (delay21 s service).1.fc_retry_active = s.fc_retry_active ∧
    (delay21 s service).1.isotp_collect_timeout_s = s.isotp_collect_timeout_s := by
  unfold delay21
  split <;> simp

/-- C8: on a response stream (no status token, parse `b`) that does not
begin with a First Frame, any `0x7F` followed by two bytes makes
`_read_by_id` return `None` with `last_status` unchanged, and makes
`read_field` return `None` (when the ECU selection phase is a no-op). -/
theorem C8_negative_response
    (fuel : Nat) (s : UdsState) (service ident il : Nat) (cmd : String)
    (ls : List String) (dt : ℤ) (rest : List ReadEv)
    (hcmd : buildCmd service ident il = some cmd)
    (hmiss : cache_hit (delay21 s service).1 service ident = false)
    (hnoff : ¬(3 ≤ (only_hex_bytes ls).length ∧ (only_hex_bytes ls).getD 0 0 >>> 4 = 0x1))
    (hneg : ∃ k, (only_hex_bytes ls).getD k 0 = 0x7F ∧ k + 2 < (only_hex_bytes ls).length)
    (hclean : statusUpdate s.last_status ls = s.last_status) :
    (∃ s' tr, read_by_id fuel s (ReadEv.lines ls dt :: rest) service ident il
        = RbiOut.ok none s' rest tr ∧ s'.last_status = s.last_status) ∧
    (∀ sid f, s.fields.lookup sid = some f → f.request_id ≠ "" →
      (strStartsWith (strUpper f.request_id) "22"
        || strStartsWith (strUpper f.request_id) "21") = true →
      parseHexString (String.mk ((strUpper f.request_id).data.take 2)) = some service →
      parseHexString (String.mk ((strUpper f.request_id).data.drop 2)) = some ident →
      (if ((strUpper f.request_id).data.drop 2).length = 4 then 2 else 1) = il →
      select_ensure_phase s (ReadEv.lines ls dt :: rest) f
        = ⟨s, ReadEv.lines ls dt :: rest, []⟩ →
      rfValue (read_field fuel s (ReadEv.lines ls dt :: rest) sid) = some none) := by
  obtain ⟨k, hk7, hklen⟩ := hneg
  have hseg : ∀ hi lo : Nat, seg_loop (only_hex_bytes ls) ((service + 0x40) &&& 0xFF)
      il hi lo 0 [] = SegRes.neg := fun hi lo =>
    seg_loop_neg _ _ _ _ _ _ _ ⟨k, Nat.zero_le k, hk7, hklen⟩
  have hmain : read_by_id fuel s (ReadEv.lines ls dt :: rest) service ident il
      = RbiOut.ok none
        {(delay21 s service).1 with
          now := (delay21 s service).1.now + elmCmdSleep + dt,
          last_status := statusUpdate (delay21 s service).1.last_status ls}
        rest ((delay21 s service).2 ++ [Ev.send cmd]) := by
    unfold read_by_id
    rw [hcmd]
    simp only [hmiss, Bool.false_eq_true, if_false]
    rw [if_neg hnoff, hseg]
  have hstat : ((delay21 s service).1).last_status = s.last_status :=
    (delay21_preserves s service).1
  constructor
  · refine ⟨_, _, hmain, ?_⟩
    simp only [hstat, hclean]
  · intro sid f hlook hreq hrid hsvc hident hil hphase
    unfold read_field
    rw [hlook]
    simp only [if_neg hreq, hrid, Bool.true_eq_false, if_false, hphase, hsvc, hident, hil, hmain]
    rfl

theorem C8_negative_response_witness :
    (buildCmd 0x21 1 1 = some "022101" ∧
     cache_hit (delay21 sWit 0x21).1 0x21 1 = false ∧
     (only_hex_bytes ["037F2231"]).getD 1 0 = 0x7F ∧
     statusUpdate sWit.last_status ["037F2231"] = sWit.last_status) ∧
    (∃ s' tr, read_by_id 1 sWit [ReadEv.lines ["037F2231"] 0] 0x21 1 1
        = RbiOut.ok none s' [] tr ∧ s'.last_status = sWit.last_status) :=
  ⟨⟨by decide, by decide, by decide, by decide⟩,
   (C8_negative_response 1 sWit 0x21 1 1 "022101" ["037F2231"] 0 [] (by decide) (by decide)
      (by decide) ⟨1, by decide, by decide⟩ (by decide)).1⟩

/-! ## Cache and head-byte lemmas for `_read_by_id` -/

theorem cache_hit_of_resp_none (s : UdsState) (service ident : Nat)
    (h : s.last_resp = none) : cache_hit s service ident = false := by
  unfold cache_hit
  cases hc : s.current_req_id <;> cases ht : s.last_tuple <;> simp [hc, ht, h]

theorem head_of_getD (l : List Nat) (v : Nat) (hne : l ≠ []) (hd : l.getD 0 0 = v) :
    ∃ t, l = v :: t := by
  cases l with
  | nil => exact absurd rfl hne
  | cons x xs => exact ⟨xs, by rw [← hd]; rfl⟩

theorem rbi_head_aux : ∀ (fuel : Nat) (s : UdsState) (script : List ReadEv)
    (service ident il : Nat) (out : List Nat) (s' : UdsState) (r' : List ReadEv) (tr : List Ev),
    s.last_resp = none →
    read_by_id fuel s script service ident il = RbiOut.ok (some out) s' r' tr →
    ∃ t, out = ((service + 0x40) &&& 0xFF) :: t := by
  intro fuel
  induction fuel with
  | zero =>
    intro s script service ident il out s' r' tr hnone h
    have hnone' : (delay21 s service).1.last_resp = none :=
      ((delay21_preserves s service).2.2.2.1).trans hnone
    unfold read_by_id at h
    split at h
    · exact absurd h (by simp)
    · dsimp only [] at h
      rw [if_neg (by rw [cache_hit_of_resp_none _ _ _ hnone']; exact Bool.false_ne_true)] at h
      split at h
      · exact absurd h (by simp)
      · exact absurd h (by simp)
      · split at h
        · split at h
          · exact absurd h (by simp)
          · split at h
            · rename_i hacc
              simp only [RbiOut.ok.injEq, Option.some.injEq] at h
              obtain ⟨hout, -, -, -⟩ := h
              obtain ⟨t, ht⟩ := head_of_getD _ ((service + 0x40) &&& 0xFF) hacc.1 hacc.2.1
              exact ⟨t, by rw [← hout, ht]⟩
            · split at h
              · exact absurd h (by simp)
              · exact absurd h (by simp)
        · split at h
          · exact absurd h (by simp)
          · exact absurd h (by simp)
          · split at h
            · rename_i ss hsl hne
              simp only [RbiOut.ok.injEq, Option.some.injEq] at h
              obtain ⟨hout, -, -, -⟩ := h
              have hheads := seg_loop_segs_head _ _ _ _ _ _ _ _ hsl (by simp)
              cases hss : ss with
              | nil => rw [hss] at hne; exact absurd rfl hne
              | cons sg ss' =>
                obtain ⟨t, ht⟩ := hheads sg (hss ▸ List.mem_cons_self sg ss')
                refine ⟨t ++ ss'.flatten, ?_⟩
                rw [← hout, hss, List.flatten_cons, ht, List.cons_append]
            · exact absurd h (by simp)
  | succ n ih =>
    intro s script service ident il out s' r' tr hnone h
    have hnone' : (delay21 s service).1.last_resp = none :=
      ((delay21_preserves s service).2.2.2.1).trans hnone
    unfold read_by_id at h
    split at h
    · exact absurd h (by simp)
    · dsimp only [] at h
      rw [if_neg (by rw [cache_hit_of_resp_none _ _ _ hnone']; exact Bool.false_ne_true)] at h
      split at h
      · exact absurd h (by simp)
      · exact absurd h (by simp)
      · split at h
        · split at h
          · exact absurd h (by simp)
          · split at h
            · rename_i hacc
              simp only [RbiOut.ok.injEq, Option.some.injEq] at h
              obtain ⟨hout, -, -, -⟩ := h
              obtain ⟨t, ht⟩ := head_of_getD _ ((service + 0x40) &&& 0xFF) hacc.1 hacc.2.1
              exact ⟨t, by rw [← hout, ht]⟩
            · split at h
              · split at h
                · rename_i hin
                  simp only [RbiOut.ok.injEq] at h
                  obtain ⟨hres, -, -, -⟩ := h
                  refine ih _ _ _ _ _ _ _ _ _ ?_ (hres ▸ hin)
                  exact hnone'
                · exact absurd h (by simp)
                · exact absurd h (by simp)
              · exact absurd h (by simp)
        · split at h
          · exact absurd h (by simp)
          · exact absurd h (by simp)
          · split at h
            · rename_i ss hsl hne
              simp only [RbiOut.ok.injEq, Option.some.injEq] at h
              obtain ⟨hout, -, -, -⟩ := h
              have hheads := seg_loop_segs_head _ _ _ _ _ _ _ _ hsl (by simp)
              cases hss : ss with
              | nil => rw [hss] at hne; exact absurd rfl hne
              | cons sg ss' =>
                obtain ⟨t, ht⟩ := hheads sg (hss ▸ List.mem_cons_self sg ss')
                refine ⟨t ++ ss'.flatten, ?_⟩
                rw [← hout, hss, List.flatten_cons, ht, List.cons_append]
            · exact absurd h (by simp)

/-- C7 counterexample: a multi-frame (First Frame) 0x22 response is
accepted with no DID check.  Requesting DID 0x2001, the ECU answers with
the bytes of DID 0xFFFF and `_read_by_id` still returns the payload, whose
second byte differs from the requested DID high byte. -/
theorem C7_counterexample :
    rbiResult (read_by_id 1 sWit [ReadEv.lines ["100562FFFF0102"] 0] 0x22 0x2001 2)
      = some (some [0x62, 0xFF, 0xFF, 1, 2]) ∧
    [0x62, 0xFF, 0xFF, 1, 2].getD 1 0 ≠ (0x2001 >>> 8) &&& 0xFF :=
  ⟨by decide, by decide⟩

/-- C7 (amended): every response accepted as positive by `_read_by_id`
from the transport (no cached response pending) starts with the positive
response SID `service + 0x40`; the DID bytes are checked only on the
segment-concatenation path (and only when two bytes follow within the
parsed stream), not on the First-Frame reassembly path. -/
theorem C7_positive_has_sid (fuel : Nat) (s : UdsState) (script : List ReadEv)
    (service ident il : Nat) (out : List Nat) (s' : UdsState) (r' : List ReadEv)
    (tr : List Ev) (hnone : s.last_resp = none)
    (h : read_by_id fuel s script service ident il = RbiOut.ok (some out) s' r' tr) :
    ∃ t, out = ((service + 0x40) &&& 0xFF) :: t :=
  rbi_head_aux fuel s script service ident il out s' r' tr hnone h

theorem C7_positive_has_sid_witness :
    sWit.last_resp = none ∧ ∃ t, [0x61, 1, 5] = ((0x21 + 0x40) &&& 0xFF) :: t := by
  have hrun : rbiResult (read_by_id 1 sWit [ReadEv.lines ["610105"] 0] 0x21 1 1)
      = some (some [0x61, 1, 5]) := by decide
  cases hR : read_by_id 1 sWit [ReadEv.lines ["610105"] 0] 0x21 1 1 with
  | ok res s' r' tr =>
    rw [hR] at hrun
    simp only [rbiResult, Option.some.injEq] at hrun
    exact ⟨rfl, C7_positive_has_sid 1 sWit _ 0x21 1 1 _ s' r' tr rfl (by rw [hR, hrun])⟩
  | err => rw [hR] at hrun; simp [rbiResult] at hrun
  | exn s' r' tr => rw [hR] at hrun; simp [rbiResult] at hrun

/-! ## Cache lemmas and C5 -/

theorem cache_hit_intro (s : UdsState) (ident : Nat) (rq : Int) (bs : List Nat)
    (hcur : s.current_req_id = some rq) (htup : s.last_tuple = some (rq, 0x21, ident))
    (hresp : s.last_resp = some bs) (hlt : s.now - s.last_resp_ts < 1000000) :
    cache_hit s 0x21 ident = true := by
  unfold cache_hit
  rw [hcur, htup, hresp]
  simp [hlt]

theorem cache_hit_spec (s : UdsState) (service ident : Nat)
    (h : cache_hit s service ident = true) :
    service = 0x21 ∧ ∃ rq bs, s.current_req_id = some rq ∧
      s.last_tuple = some (rq, service, ident) ∧ s.last_resp = some bs ∧
      s.now - s.last_resp_ts < 1000000 := by
  unfold cache_hit at h
  cases hc : s.current_req_id with
  | none => rw [hc] at h; simp at h
  | some rq =>
    cases ht : s.last_tuple with
    | none => rw [hc, ht] at h; simp at h
    | some t =>
      cases hr : s.last_resp with
      | none => rw [hc, ht, hr] at h; simp at h
      | some bs =>
        rw [hc, ht, hr] at h
        simp only [Bool.and_eq_true, beq_iff_eq, decide_eq_true_eq] at h
        obtain ⟨⟨hsvc, htt⟩, hlt⟩ := h
        exact ⟨hsvc, rq, bs, rfl, by rw [htt], rfl, hlt⟩

theorem accept_resp_cache (s : UdsState) (ident : Nat) (out : List Nat) (rq : Int)
    (hcur : s.current_req_id = some rq) :
    (accept_resp s 0x21 ident out).last_tuple = some (rq, 0x21, ident) ∧
    (accept_resp s 0x21 ident out).last_resp = some out ∧
    (accept_resp s 0x21 ident out).last_resp_ts = s.now ∧
    (accept_resp s 0x21 ident out).now = s.now := by
  unfold accept_resp
  rw [hcur]
  simp

theorem rbi_cache_population_aux : ∀ (fuel : Nat) (s : UdsState) (script : List ReadEv)
    (ident il : Nat) (out : List Nat) (s' : UdsState) (r' : List ReadEv) (tr : List Ev)
    (rq : Int), s.current_req_id = some rq →
    read_by_id fuel s script 0x21 ident il = RbiOut.ok (some out) s' r' tr →
    s'.last_tuple = some (rq, 0x21, ident) ∧ s'.last_resp = some out ∧
    (s'.last_resp_ts = s'.now ∨
      (s.last_tuple = some (rq, 0x21, ident) ∧ s.last_resp = some out ∧
       s'.last_resp_ts = s.last_resp_ts)) := by
  intro fuel
  induction fuel with
  | zero =>
    intro s script ident il out s' r' tr rq hcur h
    have hp := delay21_preserves s 0x21
    have hcur1 : (delay21 s 0x21).1.current_req_id = some rq := hp.2.1.trans hcur
    unfold read_by_id at h
    split at h
    · exact absurd h (by simp)
    · dsimp only [] at h
      by_cases hch : cache_hit (delay21 s 0x21).1 0x21 ident = true
      · rw [if_pos hch] at h
        obtain ⟨-, rq', bs, hcur', htup', hresp', -⟩ := cache_hit_spec _ _ _ hch
        have hrq : rq' = rq := by
          rw [hcur1] at hcur'
          exact (Option.some.injEq _ _ ▸ hcur').symm
        simp only [RbiOut.ok.injEq] at h
        obtain ⟨hres, hs, -, -⟩ := h
        rw [hresp'] at hres
        subst hrq
        refine ⟨?_, ?_, Or.inr ⟨?_, ?_, ?_⟩⟩
        · rw [← hs]; exact htup'
        · rw [← hs]; exact hresp'.trans hres
        · rw [← hp.2.2.1]; exact htup'
        · rw [← hp.2.2.2.1]; exact hresp'.trans hres
        · rw [← hs]; exact hp.2.2.2.2.1
      · rw [if_neg hch] at h
        split at h
        · exact absurd h (by simp)
        · exact absurd h (by simp)
        · split at h
          · split at h
            · exact absurd h (by simp)
            · split at h
              · simp only [RbiOut.ok.injEq, Option.some.injEq] at h
                obtain ⟨hout, hs, -, -⟩ := h
                rw [← hs, hout]
                refine ⟨(accept_resp_cache _ ident out rq ?_).1,
                  (accept_resp_cache _ ident out rq ?_).2.1,
                  Or.inl ((accept_resp_cache _ ident out rq ?_).2.2.1.trans
                    (accept_resp_cache _ ident out rq ?_).2.2.2.symm)⟩ <;> exact hcur1
              · split at h
                · exact absurd h (by simp)
                · exact absurd h (by simp)
          · split at h
            · exact absurd h (by simp)
            · exact absurd h (by simp)
            · split at h
              · simp only [RbiOut.ok.injEq, Option.some.injEq] at h
                obtain ⟨hout, hs, -, -⟩ := h
                rw [← hs, hout]
                refine ⟨(accept_resp_cache _ ident out rq ?_).1,
                  (accept_resp_cache _ ident out rq ?_).2.1,
                  Or.inl ((accept_resp_cache _ ident out rq ?_).2.2.1.trans
                    (accept_resp_cache _ ident out rq ?_).2.2.2.symm)⟩ <;> exact hcur1
              · exact absurd h (by simp)
  | succ n ih =>
    intro s script ident il out s' r' tr rq hcur h
    have hp := delay21_preserves s 0x21
    have hcur1 : (delay21 s 0x21).1.current_req_id = some rq := hp.2.1.trans hcur
    unfold read_by_id at h
    split at h
    · exact absurd h (by simp)
    · dsimp only [] at h
      by_cases hch : cache_hit (delay21 s 0x21).1 0x21 ident = true
      · rw [if_pos hch] at h
        obtain ⟨-, rq', bs, hcur', htup', hresp', -⟩ := cache_hit_spec _ _ _ hch
        have hrq : rq' = rq := by
          rw [hcur1] at hcur'
          exact (Option.some.injEq _ _ ▸ hcur').symm
        simp only [RbiOut.ok.injEq] at h
        obtain ⟨hres, hs, -, -⟩ := h
        rw [hresp'] at hres
        subst hrq
        refine ⟨?_, ?_, Or.inr ⟨?_, ?_, ?_⟩⟩
        · rw [← hs]; exact htup'
        · rw [← hs]; exact hresp'.trans hres
        · rw [← hp.2.2.1]; exact htup'
        · rw [← hp.2.2.2.1]; exact hresp'.trans hres
        · rw [← hs]; exact hp.2.2.2.2.1
      · rw [if_neg hch] at h
        split at h
        · exact absurd h (by simp)
        · exact absurd h (by simp)
        · split at h
          · split at h
            · exact absurd h (by simp)
            · split at h
              · simp only [RbiOut.ok.injEq, Option.some.injEq] at h
                obtain ⟨hout, hs, -, -⟩ := h
                rw [← hs, hout]
                refine ⟨(accept_resp_cache _ ident out rq ?_).1,
                  (accept_resp_cache _ ident out rq ?_).2.1,
                  Or.inl ((accept_resp_cache _ ident out rq ?_).2.2.1.trans
                    (accept_resp_cache _ ident out rq ?_).2.2.2.symm)⟩ <;> exact hcur1
              · split at h
                · split at h
                  · rename_i hin
                    simp only [RbiOut.ok.injEq] at h
                    obtain ⟨hres, hs, -, -⟩ := h
                    have hrec := ih _ _ ident il out _ _ _ rq (by exact hcur1) (hres ▸ hin)
                    refine ⟨?_, ?_, ?_⟩
                    · rw [← hs]; exact hrec.1
                    · rw [← hs]; exact hrec.2.1
                    · rw [← hs]
                      rcases hrec.2.2 with hl | ⟨ht1, ht2, ht3⟩
                      · exact Or.inl hl
                      · refine Or.inr ⟨?_, ?_, ?_⟩
                        · rw [← hp.2.2.1]; exact ht1
                        · rw [← hp.2.2.2.1]; exact ht2
                        · rw [ht3]; exact hp.2.2.2.2.1
                  · exact absurd h (by simp)
                  · exact absurd h (by simp)
                · exact absurd h (by simp)
          · split at h
            · exact absurd h (by simp)
            · exact absurd h (by simp)
            · split at h
              · simp only [RbiOut.ok.injEq, Option.some.injEq] at h
                obtain ⟨hout, hs, -, -⟩ := h
                rw [← hs, hout]
                refine ⟨(accept_resp_cache _ ident out rq ?_).1,
                  (accept_resp_cache _ ident out rq ?_).2.1,
                  Or.inl ((accept_resp_cache _ ident out rq ?_).2.2.1.trans
                    (accept_resp_cache _ ident out rq ?_).2.2.2.symm)⟩ <;> exact hcur1
              · exact absurd h (by simp)

/-- C5: (a) a service-0x21 request whose response was cached under the same
key `(current_request_id, 0x21, identifier)` less than one second earlier
returns the cached bytes, consuming no transport read and sending nothing;
(b) every positive 0x21 response populates the cache with the returned
bytes, stamped with the current time (or was itself served from the cache,
which already holds those bytes). -/
theorem C5_response_cache (fuel : Nat) (s : UdsState) (script : List ReadEv)
    (ident il : Nat) (hil : il = 1 ∨ il = 2) :
    (∀ rq bs, s.current_req_id = some rq →
      s.last_tuple = some (rq, 0x21, ident) →
      s.last_resp = some bs →
      (delay21 s 0x21).1.now - s.last_resp_ts < 1000000 →
      read_by_id fuel s script 0x21 ident il
        = RbiOut.ok (some bs) (delay21 s 0x21).1 script (delay21 s 0x21).2 ∧
      ∀ e ∈ (delay21 s 0x21).2, ∀ c, e ≠ Ev.send c) ∧
    (∀ rq out s' r' tr, s.current_req_id = some rq →
      read_by_id fuel s script 0x21 ident il = RbiOut.ok (some out) s' r' tr →
      s'.last_tuple = some (rq, 0x21, ident) ∧ s'.last_resp = some out ∧
      (s'.last_resp_ts = s'.now ∨
        (s.last_tuple = some (rq, 0x21, ident) ∧ s.last_resp = some out ∧
         s'.last_resp_ts = s.last_resp_ts))) := by
  constructor
  · intro rq bs hcur htup hresp hlt
    have hp := delay21_preserves s 0x21
    have hch : cache_hit (delay21 s 0x21).1 0x21 ident = true :=
      cache_hit_intro _ ident rq bs (hp.2.1.trans hcur) (hp.2.2.1.trans htup)
        (hp.2.2.2.1.trans hresp) (by rw [hp.2.2.2.2.1]; exact hlt)
    obtain ⟨cmd, hcmd⟩ : ∃ c, buildCmd 0x21 ident il = some c := by
      rcases hil with rfl | rfl
      · exact ⟨_, rfl⟩
      · exact ⟨_, rfl⟩
    constructor
    · unfold read_by_id
      rw [hcmd]
      simp only [hch, if_true]
      rw [hp.2.2.2.1.trans hresp]
    · intro e he c
      unfold delay21 at he
      split at he
      · simp only [List.mem_singleton] at he
        subst he
        simp
      · simp at he
  · intro rq out s' r' tr hcur h
    exact rbi_cache_population_aux fuel s script ident il out s' r' tr rq hcur h

theorem C5_response_cache_witness :
    (sCache.current_req_id = some 0x7E4 ∧ sCache.last_tuple = some (0x7E4, 0x21, 1) ∧
     sCache.last_resp = some [0x61, 1, 9] ∧
     (delay21 sCache 0x21).1.now - sCache.last_resp_ts < 1000000) ∧
    read_by_id 1 sCache [] 0x21 1 1
      = RbiOut.ok (some [0x61, 1, 9]) (delay21 sCache 0x21).1 [] (delay21 sCache 0x21).2 := by
  refine ⟨⟨rfl, rfl, rfl, by decide⟩, ?_⟩
  exact ((C5_response_cache 1 sCache [] 1 1 (Or.inl rfl)).1 0x7E4 [0x61, 1, 9]
    rfl rfl rfl (by decide)).1

/-! ## Consecutive-Frame collection lemmas -/

theorem or32_shift (x : Nat) (h : x < 16) : (0x20 ||| x) >>> 4 = 0x2 := by
  interval_cases x <;> decide

theorem or32_and (x : Nat) (h : x < 16) : (0x20 ||| x) &&& 0xF = x := by
  interval_cases x <;> decide

theorem scan_cfs_go_nil (fuel tl esn : Nat) (col : List Nat) :
    scan_cfs_go fuel tl [] esn col = some (col, esn) := by
  cases fuel <;> rfl

theorem scan_cfs_single (tl : Nat) (c col : List Nat) (e : Nat)
    (h7 : c.length ≤ 7) (hle : col.length + c.length ≤ tl) :
    scan_cfs tl ((0x20 ||| (e &&& 0xF)) :: c) e col = some (col ++ c, (e + 1) &&& 0xF) := by
  have hx : e &&& 0xF < 16 := Nat.lt_of_le_of_lt Nat.and_le_right (by norm_num)
  have htk : min 7 (min c.length (tl - col.length)) = c.length := by omega
  unfold scan_cfs
  simp only [List.length_cons]
  unfold scan_cfs_go
  rw [if_pos (or32_shift _ hx), if_neg (by rw [or32_and _ hx]; exact fun hc => hc rfl)]
  simp only [htk, List.drop_length, List.take_length]
  exact scan_cfs_go_nil _ _ _ _

theorem scan_cfs_bad (tl w esn : Nat) (tail col : List Nat)
    (hw16 : w < 16) (hw : w ≠ esn &&& 0xF) :
    scan_cfs tl ((0x20 ||| w) :: tail) esn col = none := by
  unfold scan_cfs
  simp only [List.length_cons]
  unfold scan_cfs_go
  rw [if_pos (or32_shift _ hw16), if_pos (by rw [or32_and _ hw16]; exact hw)]

theorem collect_go_step (fuel tl : Nat) (dl : ℤ) (collected c : List Nat) (e : Nat)
    (now : ℤ) (ls : List String) (rest : List ReadEv)
    (hb : only_hex_bytes ls = (0x20 ||| (e &&& 0xF)) :: c)
    (h7 : c.length ≤ 7)
    (hsum : collected.length + c.length ≤ tl)
    (hlt : collected.length < tl) (hnow : now < dl) :
    collect_go (fuel + 1) tl dl collected e now (ReadEv.lines ls 0 :: rest)
      = collect_go fuel tl dl (collected ++ c) ((e + 1) &&& 0xF) (now + 0) rest := by
  conv_lhs => unfold collect_go
  rw [if_pos ⟨hlt, hnow⟩]
  simp only [hb]
  rw [if_neg (by simp)]
  rw [scan_cfs_single tl c collected e h7 hsum]

theorem collect_go_good : ∀ (chunks : List (List Nat)) (evs : List ReadEv) (e tl : Nat)
    (dl : ℤ) (collected : List Nat) (now : ℤ) (rest : List ReadEv),
    goodCFs e evs chunks = true →
    collected.length + (chunks.map List.length).sum ≤ tl →
    now < dl →
    collect_go (evs ++ rest).length tl dl collected e now (evs ++ rest)
      = collect_go rest.length tl dl (collected ++ chunks.flatten) (esnAfter e chunks.length)
          now rest := by
  intro chunks
  induction chunks with
  | nil =>
    intro evs e tl dl collected now rest hg hsum hnow
    cases evs with
    | nil => simp [esnAfter]
    | cons ev evs' =>
      exfalso
      cases ev <;> simp [goodCFs] at hg
  | cons c cs ih =>
    intro evs e tl dl collected now rest hg hsum hnow
    cases evs with
    | nil => simp [goodCFs] at hg
    | cons ev evs' =>
      cases ev with
      | timeout dt => simp [goodCFs] at hg
      | lines ls dt =>
        simp only [goodCFs, Bool.and_eq_true, decide_eq_true_eq] at hg
        obtain ⟨⟨⟨⟨hdt, hb⟩, h1⟩, h7⟩, hrest⟩ := hg
        subst hdt
        have hsum1 : collected.length + c.length ≤ tl := by
          simp only [List.map_cons, List.sum_cons] at hsum
          omega
        have hlt : collected.length < tl := by
          simp only [List.map_cons, List.sum_cons] at hsum
          omega
        simp only [List.cons_append, List.length_cons]
        rw [collect_go_step _ _ _ _ _ _ _ _ _ hb h7 hsum1 hlt hnow]
        have := ih evs' ((e + 1) &&& 0xF) tl dl (collected ++ c) (now + 0) rest hrest
          (by simp only [List.length_append, List.map_cons, List.sum_cons] at hsum ⊢; omega)
          (by rw [add_zero]; exact hnow)
        rw [this]
        simp only [List.flatten_cons, List.append_assoc, List.length_cons, esnAfter, add_zero]

theorem collect_go_full (fuel tl : Nat) (dl : ℤ) (collected : List Nat) (esn : Nat)
    (now : ℤ) (script : List ReadEv) (h : tl ≤ collected.length) :
    collect_go fuel tl dl collected esn now script
      = CollectRes.done collected esn now script := by
  cases fuel with
  | zero => rfl
  | succ n =>
    unfold collect_go
    rw [if_neg (fun hc => by omega)]

theorem lt_add_isotp (now0 x : ℤ) (hx : 0 ≤ x) :
    now0 < now0 + (if x = (0 : ℤ) then 2500000 else x) := by
  split
  · omega
  · omega

/-- C2: on a cache miss, a First-Frame response followed by a run of
Consecutive Frames with the expected sequence numbers carrying exactly the
declared payload length makes `_read_by_id` return the reassembled payload
(FF tail plus the CF chunks, truncated to the declared length), consuming
exactly those events. -/
theorem C2_ff_reassembly
    (fuel : Nat) (s : UdsState) (service ident il : Nat) (cmd : String)
    (ffls : List String) (dt0 : ℤ) (chunks : List (List Nat)) (evs rest : List ReadEv)
    (hcmd : buildCmd service ident il = some cmd)
    (hmiss : cache_hit (delay21 s service).1 service ident = false)
    (hff : 3 ≤ (only_hex_bytes ffls).length ∧ (only_hex_bytes ffls).getD 0 0 >>> 4 = 0x1)
    (htl2 : 2 ≤ ffTotalLen (only_hex_bytes ffls))
    (hsum : ((only_hex_bytes ffls).drop 2).length + (chunks.map List.length).sum
        = ffTotalLen (only_hex_bytes ffls))
    (hgood : goodCFs 1 evs chunks = true)
    (hsid : ((only_hex_bytes ffls).drop 2).getD 0 0 = (service + 0x40) &&& 0xFF)
    (ht : 0 ≤ s.isotp_collect_timeout_s) :
    rbiResult (read_by_id fuel s (ReadEv.lines ffls dt0 :: (evs ++ rest)) service ident il)
      = some (some (((only_hex_bytes ffls).drop 2 ++ chunks.flatten).take
          (ffTotalLen (only_hex_bytes ffls)))) ∧
    rbiScript (read_by_id fuel s (ReadEv.lines ffls dt0 :: (evs ++ rest)) service ident il)
      = rest := by
  have hiso : (delay21 s service).1.isotp_collect_timeout_s = s.isotp_collect_timeout_s :=
    (delay21_preserves s service).2.2.2.2.2.2.2
  have hlenf : ((only_hex_bytes ffls).drop 2 ++ chunks.flatten).length
      = ffTotalLen (only_hex_bytes ffls) := by
    rw [List.length_append, List.length_flatten]
    exact hsum
  have hcoll : ∀ (now0 dl : ℤ), now0 < dl →
      collect_loop (ffTotalLen (only_hex_bytes ffls)) dl ((only_hex_bytes ffls).drop 2) 1 now0
          (evs ++ rest)
        = CollectRes.done ((only_hex_bytes ffls).drop 2 ++ chunks.flatten)
            (esnAfter 1 chunks.length) now0 rest := by
    intro now0 dl hlt
    unfold collect_loop
    rw [collect_go_good chunks evs 1 _ dl _ now0 rest hgood (by omega) hlt]
    exact collect_go_full _ _ _ _ _ _ _ hlenf.ge
  obtain ⟨p0, ptl, hp⟩ : ∃ p0 ptl, (only_hex_bytes ffls).drop 2 = p0 :: ptl := by
    have hne : ((only_hex_bytes ffls).drop 2).length ≠ 0 := by
      rw [List.length_drop]; omega
    cases hd : (only_hex_bytes ffls).drop 2 with
    | nil => rw [hd] at hne; simp at hne
    | cons a l => exact ⟨a, l, rfl⟩
  obtain ⟨m, hm⟩ : ∃ m, ffTotalLen (only_hex_bytes ffls) = m + 1 :=
    ⟨ffTotalLen (only_hex_bytes ffls) - 1, by omega⟩
  have hout : ((only_hex_bytes ffls).drop 2 ++ chunks.flatten).take
        (ffTotalLen (only_hex_bytes ffls))
      = p0 :: ((ptl ++ chunks.flatten).take m) := by
    rw [hp, List.cons_append, hm, List.take_succ_cons]
  have hlen : (((only_hex_bytes ffls).drop 2 ++ chunks.flatten).take
        (ffTotalLen (only_hex_bytes ffls))).length = ffTotalLen (only_hex_bytes ffls) := by
    rw [List.length_take, hlenf]
    exact Nat.min_self _
  have haccept : ((only_hex_bytes ffls).drop 2 ++ chunks.flatten).take
        (ffTotalLen (only_hex_bytes ffls)) ≠ [] ∧
      (((only_hex_bytes ffls).drop 2 ++ chunks.flatten).take
        (ffTotalLen (only_hex_bytes ffls))).getD 0 0 = (service + 0x40) &&& 0xFF ∧
      ffTotalLen (only_hex_bytes ffls) ≤ (((only_hex_bytes ffls).drop 2
        ++ chunks.flatten).take (ffTotalLen (only_hex_bytes ffls))).length := by
    refine ⟨?_, ?_, ?_⟩
    · rw [hout]; exact List.cons_ne_nil _ _
    · rw [hout, List.getD_cons_zero]
      rw [hp, List.getD_cons_zero] at hsid
      exact hsid
    · rw [hlen]
  have htl : ffTotalLen (only_hex_bytes ffls)
      = (((only_hex_bytes ffls).getD 0 0 &&& 0xF) <<< 8)
          ||| ((only_hex_bytes ffls).getD 1 0 &&& 0xFF) := rfl
  unfold read_by_id
  rw [hcmd]
  simp only [hmiss, Bool.false_eq_true, if_false]
  rw [if_pos hff]
  rw [← htl]
  rw [hcoll]
  · simp only []
    rw [if_pos haccept]
    exact ⟨rfl, rfl⟩
  · dsimp only []
    rw [hiso]
    exact lt_add_isotp _ _ ht

theorem C2_ff_reassembly_witness :
    (rbiResult (read_by_id 1 sWit (ReadEv.lines ["100A6221010203040506"] 0
        :: ([ReadEv.lines ["210708"] 0] ++ [])) 0x22 0x2101 2)
      = some (some (((only_hex_bytes ["100A6221010203040506"]).drop 2
          ++ [[0x07, 0x08]].flatten).take
            (ffTotalLen (only_hex_bytes ["100A6221010203040506"])))) ∧
     rbiScript (read_by_id 1 sWit (ReadEv.lines ["100A6221010203040506"] 0
        :: ([ReadEv.lines ["210708"] 0] ++ [])) 0x22 0x2101 2) = []) ∧
    ((only_hex_bytes ["100A6221010203040506"]).drop 2
          ++ [[0x07, 0x08]].flatten).take (ffTotalLen (only_hex_bytes ["100A6221010203040506"]))
      = [0x62, 0x21, 0x01, 0x02, 0x03, 0x04, 0x05, 0x06, 0x07, 0x08] :=
  ⟨C2_ff_reassembly 1 sWit 0x22 0x2101 2 "03222101" ["100A6221010203040506"] 0
      [[0x07, 0x08]] [ReadEv.lines ["210708"] 0] [] (by decide) (by decide) (by decide)
      (by decide) (by decide) (by decide) (by decide) (by decide),
   by decide⟩

theorem collect_go_bad_step (fuel tl : Nat) (dl : ℤ) (collected : List Nat) (esn : Nat)
    (now dtb : ℤ) (badls : List String) (w : Nat) (badtail : List Nat) (rest : List ReadEv)
    (hbad : only_hex_bytes badls = (0x20 ||| w) :: badtail)
    (hw16 : w < 16) (hw : w ≠ esn &&& 0xF)
    (hlt : collected.length < tl) (hnow : now < dl) :
    collect_go (fuel + 1) tl dl collected esn now (ReadEv.lines badls dtb :: rest)
      = CollectRes.seqErr (now + dtb) rest := by
  conv_lhs => unfold collect_go
  rw [if_pos ⟨hlt, hnow⟩]
  simp only [hbad]
  rw [if_neg (by simp)]
  rw [scan_cfs_bad tl w esn badtail collected hw16 hw]

/-- C3: during multi-frame collection, a Consecutive Frame whose 4-bit
sequence number differs from the expected one (starting at 1, advancing
modulo 16 over the preceding well-formed CFs) makes `_read_by_id` return
`None` immediately, leaving the events after that line unconsumed. -/
theorem C3_sequence_error
    (fuel : Nat) (s : UdsState) (service ident il : Nat) (cmd : String)
    (ffls badls : List String) (dt0 dtb : ℤ) (chunks : List (List Nat))
    (w : Nat) (badtail : List Nat) (evs rest : List ReadEv)
    (hcmd : buildCmd service ident il = some cmd)
    (hmiss : cache_hit (delay21 s service).1 service ident = false)
    (hff : 3 ≤ (only_hex_bytes ffls).length ∧ (only_hex_bytes ffls).getD 0 0 >>> 4 = 0x1)
    (hsum : ((only_hex_bytes ffls).drop 2).length + (chunks.map List.length).sum
        < ffTotalLen (only_hex_bytes ffls))
    (hgood : goodCFs 1 evs chunks = true)
    (hbad : only_hex_bytes badls = (0x20 ||| w) :: badtail)
    (hw16 : w < 16) (hw : w ≠ esnAfter 1 chunks.length &&& 0xF)
    (ht : 0 ≤ s.isotp_collect_timeout_s) :
    rbiResult (read_by_id fuel s
        (ReadEv.lines ffls dt0 :: (evs ++ (ReadEv.lines badls dtb :: rest))) service ident il)
      = some none ∧
    rbiScript (read_by_id fuel s
        (ReadEv.lines ffls dt0 :: (evs ++ (ReadEv.lines badls dtb :: rest))) service ident il)
      = rest := by
  have hiso : (delay21 s service).1.isotp_collect_timeout_s = s.isotp_collect_timeout_s :=
    (delay21_preserves s service).2.2.2.2.2.2.2
  have hcoll : ∀ (now0 dl : ℤ), now0 < dl →
      collect_loop (ffTotalLen (only_hex_bytes ffls)) dl ((only_hex_bytes ffls).drop 2) 1 now0
          (evs ++ (ReadEv.lines badls dtb :: rest))
        = CollectRes.seqErr (now0 + dtb) rest := by
    intro now0 dl hlt
    unfold collect_loop
    rw [collect_go_good chunks evs 1 _ dl _ now0 _ hgood (by omega) hlt]
    simp only [List.length_cons]
    rw [collect_go_bad_step rest.length _ dl _ _ now0 dtb badls w badtail rest hbad hw16 hw
      (by rw [List.length_append, List.length_flatten]; omega) hlt]
  have htl : ffTotalLen (only_hex_bytes ffls)
      = (((only_hex_bytes ffls).getD 0 0 &&& 0xF) <<< 8)
          ||| ((only_hex_bytes ffls).getD 1 0 &&& 0xFF) := rfl
  unfold read_by_id
  rw [hcmd]
  simp only [hmiss, Bool.false_eq_true, if_false]
  rw [if_pos hff]
  rw [← htl]
  rw [hcoll]
  · exact ⟨rfl, rfl⟩
  · dsimp only []
    rw [hiso]
    exact lt_add_isotp _ _ ht

theorem C3_sequence_error_witness :
    rbiResult (read_by_id 1 sWit (ReadEv.lines ["100C6221010203040506"] 0
        :: ([ReadEv.lines ["210708"] 0] ++ (ReadEv.lines ["230910"] 0
          :: [ReadEv.lines ["240A0B"] 0]))) 0x22 0x2101 2)
      = some none ∧
    rbiScript (read_by_id 1 sWit (ReadEv.lines ["100C6221010203040506"] 0
        :: ([ReadEv.lines ["210708"] 0] ++ (ReadEv.lines ["230910"] 0
          :: [ReadEv.lines ["240A0B"] 0]))) 0x22 0x2101 2)
      = [ReadEv.lines ["240A0B"] 0] :=
  C3_sequence_error 1 sWit 0x22 0x2101 2 "03222101" ["100C6221010203040506"] ["230910"] 0 0
    [[0x07, 0x08]] 3 [0x09, 0x10] [ReadEv.lines ["210708"] 0] [ReadEv.lines ["240A0B"] 0]
    (by decide) (by decide) (by decide) (by decide) (by decide) (by decide) (by decide)
    (by decide) (by decide)

/-! ## Flow-control retry lemmas -/

theorem countFC_append (a b : List Ev) : countFC (a ++ b) = countFC a + countFC b := by
  unfold countFC
  rw [List.filter_append, List.length_append]

theorem countFC_delay21 (s : UdsState) (service : Nat) :
    countFC (delay21 s service).2 = 0 := by
  unfold delay21
  split <;> rfl

theorem countFC_send (c : String) (hc : c ≠ "ATCFC1") : countFC [Ev.send c] = 0 := by
  have hb : (Ev.send c == Ev.send "ATCFC1") = false := by
    simp only [beq_eq_false_iff_ne, ne_eq, Ev.send.injEq]
    exact hc
  unfold countFC
  simp [List.filter_cons, hb]

theorem buildCmd_ne_fc (service ident il : Nat) (c : String)
    (h : buildCmd service ident il = some c) : c ≠ "ATCFC1" := by
  unfold buildCmd at h
  split at h
  · cases h
    intro hc
    have hd := congrArg String.data hc
    have h03 : ("03" ++ hexPad 2 service ++ hexPad 2 ((ident >>> 8) &&& 0xFF)
        ++ hexPad 2 (ident &&& 0xFF)).data
        = '0' :: '3' :: (hexPad 2 service ++ hexPad 2 ((ident >>> 8) &&& 0xFF)
            ++ hexPad 2 (ident &&& 0xFF)).data := rfl
    rw [h03] at hd
    have hA : "ATCFC1".data = ['A', 'T', 'C', 'F', 'C', '1'] := rfl
    rw [hA] at hd
    simp at hd
  · split at h
    · cases h
      intro hc
      have hd := congrArg String.data hc
      have h02 : ("02" ++ hexPad 2 service ++ hexPad 2 (ident &&& 0xFF)).data
          = '0' :: '2' :: (hexPad 2 service ++ hexPad 2 (ident &&& 0xFF)).data := rfl
      rw [h02] at hd
      have hA : "ATCFC1".data = ['A', 'T', 'C', 'F', 'C', '1'] := rfl
      rw [hA] at hd
      simp at hd
    · exact absurd h (by simp)

theorem rbi_active_props (fuel : Nat) (s : UdsState) (script : List ReadEv)
    (service ident il : Nat) (cmd : String)
    (hcmd : buildCmd service ident il = some cmd)
    (hact : s.fc_retry_active = true) :
    read_by_id fuel s script service ident il ≠ RbiOut.err ∧
    countFC (rbiTrace (read_by_id fuel s script service ident il)) = 0 := by
  have h0 : countFC (delay21 s service).2 = 0 := countFC_delay21 s service
  have h1 : countFC ((delay21 s service).2 ++ [Ev.send cmd]) = 0 := by
    rw [countFC_append, h0, countFC_send cmd (buildCmd_ne_fc service ident il cmd hcmd)]
  unfold read_by_id
  rw [hcmd]
  dsimp only []
  split
  · exact ⟨by simp, by simpa [rbiTrace] using h0⟩
  · split
    · exact ⟨by simp, by simpa [rbiTrace] using h1⟩
    · exact ⟨by simp, by simpa [rbiTrace] using h1⟩
    · split
      · split
        · exact ⟨by simp, by simpa [rbiTrace] using h1⟩
        · split
          · exact ⟨by simp, by simpa [rbiTrace] using h1⟩
          · split
            · rename_i hcond
              have hx : (delay21 s service).1.fc_retry_active = false := hcond.2.2
              rw [(delay21_preserves s service).2.2.2.2.2.2.1, hact] at hx
              simp at hx
            · exact ⟨by simp, by simpa [rbiTrace] using h1⟩
      · split
        · exact ⟨by simp, by simpa [rbiTrace] using h1⟩
        · exact ⟨by simp, by simpa [rbiTrace] using h1⟩
        · split
          · exact ⟨by simp, by simpa [rbiTrace] using h1⟩
          · exact ⟨by simp, by simpa [rbiTrace] using h1⟩

/-- C4: when a First Frame arrives but the Consecutive-Frame read times
out with the payload incomplete, flow-control retry enabled and not
already active, `_read_by_id` sends `ATCFC1`, `ATFCSD 300005`, `ATAL`,
sleeps 50 ms, and retries the same request once with the retry flag set;
the retried call issues no further flow-control reassert, so the whole
call sends `ATCFC1` exactly once. -/
theorem C4_fc_retry_once
    (fuel : Nat) (s : UdsState) (service ident il : Nat) (cmd : String)
    (ffls : List String) (dt0 dt1 : ℤ) (rest : List ReadEv)
    (hcmd : buildCmd service ident il = some cmd)
    (hdel : (delay21 s service).2 = [])
    (hmiss : cache_hit (delay21 s service).1 service ident = false)
    (hff : 3 ≤ (only_hex_bytes ffls).length ∧ (only_hex_bytes ffls).getD 0 0 >>> 4 = 0x1)
    (hincomplete : ((only_hex_bytes ffls).drop 2).length < ffTotalLen (only_hex_bytes ffls))
    (hen : s.fc_retry_enabled = true)
    (hact : s.fc_retry_active = false)
    (ht : 0 ≤ s.isotp_collect_timeout_s) :
    rbiTrace (read_by_id (fuel + 1) s (ReadEv.lines ffls dt0 :: ReadEv.timeout dt1 :: rest)
        service ident il)
      = Ev.send cmd :: (fcTrace ++ (Ev.sleep 50000 ::
          rbiTrace (read_by_id fuel (fc_retry_inner_state s service ffls dt0 dt1 rest)
            (fc_reassert_script rest) service ident il))) ∧
    countFC (rbiTrace (read_by_id (fuel + 1) s
        (ReadEv.lines ffls dt0 :: ReadEv.timeout dt1 :: rest) service ident il)) = 1 ∧
    countFC (rbiTrace (read_by_id fuel (fc_retry_inner_state s service ffls dt0 dt1 rest)
        (fc_reassert_script rest) service ident il)) = 0 ∧
    (fc_retry_inner_state s service ffls dt0 dt1 rest).fc_retry_active = true := by
  have hiso : (delay21 s service).1.isotp_collect_timeout_s = s.isotp_collect_timeout_s :=
    (delay21_preserves s service).2.2.2.2.2.2.2
  have hactI : (fc_retry_inner_state s service ffls dt0 dt1 rest).fc_retry_active = true := rfl
  have hprops := rbi_active_props fuel (fc_retry_inner_state s service ffls dt0 dt1 rest)
    (fc_reassert_script rest) service ident il cmd hcmd hactI
  have htl : ffTotalLen (only_hex_bytes ffls)
      = (((only_hex_bytes ffls).getD 0 0 &&& 0xF) <<< 8)
          ||| ((only_hex_bytes ffls).getD 1 0 &&& 0xFF) := rfl
  have hcoll : ∀ (now0 dl : ℤ), now0 < dl →
      collect_loop (ffTotalLen (only_hex_bytes ffls)) dl ((only_hex_bytes ffls).drop 2) 1 now0
          (ReadEv.timeout dt1 :: rest)
        = CollectRes.done ((only_hex_bytes ffls).drop 2) 1 (now0 + dt1) rest := by
    intro now0 dl hlt
    unfold collect_loop
    simp only [List.length_cons]
    conv_lhs => unfold collect_go
    rw [if_pos ⟨hincomplete, hlt⟩]
  have hkey : read_by_id (fuel + 1) s (ReadEv.lines ffls dt0 :: ReadEv.timeout dt1 :: rest)
        service ident il
      = match read_by_id fuel (fc_retry_inner_state s service ffls dt0 dt1 rest)
            (fc_reassert_script rest) service ident il with
        | RbiOut.ok res s' r' tr' => RbiOut.ok res {s' with fc_retry_active := false} r'
            (((delay21 s service).2 ++ [Ev.send cmd]) ++ fcTrace ++ [Ev.sleep 50000] ++ tr')
        | RbiOut.exn s' r' tr' => RbiOut.exn {s' with fc_retry_active := false} r'
            (((delay21 s service).2 ++ [Ev.send cmd]) ++ fcTrace ++ [Ev.sleep 50000] ++ tr')
        | RbiOut.err => RbiOut.err := by
    conv_lhs => unfold read_by_id
    rw [hcmd]
    simp only [hmiss, Bool.false_eq_true, if_false]
    rw [if_pos hff]
    rw [← htl]
    rw [hcoll]
    · simp only []
      split
      · rename_i hco
        exfalso
        have hco3 := hco.2.2
        rw [List.length_take] at hco3
        omega
      · split
        · rfl
        · rename_i hx hretry
          exact absurd ⟨hincomplete,
            ((delay21_preserves s service).2.2.2.2.2.1).trans hen,
            ((delay21_preserves s service).2.2.2.2.2.2.1).trans hact⟩ hretry
    · dsimp only []
      rw [hiso]
      exact lt_add_isotp _ _ ht
  cases hin : read_by_id fuel (fc_retry_inner_state s service ffls dt0 dt1 rest)
      (fc_reassert_script rest) service ident il with
  | err => exact absurd hin hprops.1
  | exn s' r' tr' =>
    have hc' : countFC tr' = 0 := by
      have h2 := hprops.2
      rw [hin] at h2
      simpa [rbiTrace] using h2
    rw [hkey, hin]
    refine ⟨?_, ?_, ?_, rfl⟩
    · simp [rbiTrace, hdel]
    · have hb : (Ev.send cmd == Ev.send "ATCFC1") = false := by
        simp only [beq_eq_false_iff_ne, ne_eq, Ev.send.injEq]
        exact buildCmd_ne_fc service ident il cmd hcmd
      simp [countFC, rbiTrace, hdel, fcTrace, List.filter_cons, List.filter_append, hb,
        show (Ev.send "ATFCSD 300005" == Ev.send "ATCFC1") = false from by decide,
        show (Ev.send "ATAL" == Ev.send "ATCFC1") = false from by decide,
        show (Ev.send "ATCFC1" == Ev.send "ATCFC1") = true from by decide,
        show (Ev.sleep 50000 == Ev.send "ATCFC1") = false from by decide,
        show (tr'.filter (fun e => e == Ev.send "ATCFC1")).length = 0 from hc']
    · simpa [rbiTrace] using hc'
  | ok res s' r' tr' =>
    have hc' : countFC tr' = 0 := by
      have h2 := hprops.2
      rw [hin] at h2
      simpa [rbiTrace] using h2
    rw [hkey, hin]
    refine ⟨?_, ?_, ?_, rfl⟩
    · simp [rbiTrace, hdel]
    · have hb : (Ev.send cmd == Ev.send "ATCFC1") = false := by
        simp only [beq_eq_false_iff_ne, ne_eq, Ev.send.injEq]
        exact buildCmd_ne_fc service ident il cmd hcmd
      simp [countFC, rbiTrace, hdel, fcTrace, List.filter_cons, List.filter_append, hb,
        show (Ev.send "ATFCSD 300005" == Ev.send "ATCFC1") = false from by decide,
        show (Ev.send "ATAL" == Ev.send "ATCFC1") = false from by decide,
        show (Ev.send "ATCFC1" == Ev.send "ATCFC1") = true from by decide,
        show (Ev.sleep 50000 == Ev.send "ATCFC1") = false from by decide,
        show (tr'.filter (fun e => e == Ev.send "ATCFC1")).length = 0 from hc']
    · simpa [rbiTrace] using hc'

theorem C4_fc_retry_once_witness :
    rbiTrace (read_by_id (1 + 1) sWit
        (ReadEv.lines ["100A6221010203040506"] 0 :: ReadEv.timeout 0 :: []) 0x22 0x2101 2)
      = Ev.send "03222101" :: (fcTrace ++ (Ev.sleep 50000 ::
          rbiTrace (read_by_id 1 (fc_retry_inner_state sWit 0x22 ["100A6221010203040506"] 0 0 [])
            (fc_reassert_script []) 0x22 0x2101 2))) ∧
    countFC (rbiTrace (read_by_id (1 + 1) sWit
        (ReadEv.lines ["100A6221010203040506"] 0 :: ReadEv.timeout 0 :: []) 0x22 0x2101 2)) = 1 ∧
    countFC (rbiTrace (read_by_id 1 (fc_retry_inner_state sWit 0x22 ["100A6221010203040506"] 0 0 [])
        (fc_reassert_script []) 0x22 0x2101 2)) = 0 ∧
    (fc_retry_inner_state sWit 0x22 ["100A6221010203040506"] 0 0 []).fc_retry_active = true :=
  C4_fc_retry_once 1 sWit 0x22 0x2101 2 "03222101" ["100A6221010203040506"] 0 0 []
    (by decide) (by decide) (by decide) (by decide) (by decide) (by decide) (by decide)
    (by decide)

/-! ## TesterPresent ordering -/

/-- C9 counterexample: with the keep-alive due (`tp_interval` elapsed since
the last TesterPresent), `read_field` transmits the UDS request first and
the TesterPresent `023E00` after it, not before. -/
theorem C9_counterexample :
    sWit.tp_interval ≤ sWit.now - sWit.last_tp ∧
    rfTrace (read_field 1 sWit [ReadEv.lines ["610105"] 0] "f1")
      = [Ev.send "022101", Ev.send "023E00"] ∧
    (rfTrace (read_field 1 sWit [ReadEv.lines ["610105"] 0] "f1")).getD 0
        (Ev.sleep 0) ≠ Ev.send "023E00" :=
  ⟨by decide, by decide, by decide⟩

theorem buildCmd_ne_tp (service ident il : Nat) (c : String)
    (hs : service = 0x21 ∨ service = 0x22)
    (h : buildCmd service ident il = some c) : c ≠ "023E00" := by
  unfold buildCmd at h
  split at h
  · cases h
    intro hc
    have hd := congrArg String.data hc
    rcases hs with rfl | rfl
    · have h1 : ("03" ++ hexPad 2 0x21 ++ hexPad 2 ((ident >>> 8) &&& 0xFF)
          ++ hexPad 2 (ident &&& 0xFF)).data
          = '0' :: '3' :: '2' :: '1' :: (hexPad 2 ((ident >>> 8) &&& 0xFF)
              ++ hexPad 2 (ident &&& 0xFF)).data := rfl
      rw [h1, show "023E00".data = ['0', '2', '3', 'E', '0', '0'] from rfl] at hd
      simp at hd
    · have h1 : ("03" ++ hexPad 2 0x22 ++ hexPad 2 ((ident >>> 8) &&& 0xFF)
          ++ hexPad 2 (ident &&& 0xFF)).data
          = '0' :: '3' :: '2' :: '2' :: (hexPad 2 ((ident >>> 8) &&& 0xFF)
              ++ hexPad 2 (ident &&& 0xFF)).data := rfl
      rw [h1, show "023E00".data = ['0', '2', '3', 'E', '0', '0'] from rfl] at hd
      simp at hd
  · split at h
    · cases h
      intro hc
      have hd := congrArg String.data hc
      rcases hs with rfl | rfl
      · have h1 : ("02" ++ hexPad 2 0x21 ++ hexPad 2 (ident &&& 0xFF)).data
            = '0' :: '2' :: '2' :: '1' :: (hexPad 2 (ident &&& 0xFF)).data := rfl
        rw [h1, show "023E00".data = ['0', '2', '3', 'E', '0', '0'] from rfl] at hd
        simp at hd
      · have h1 : ("02" ++ hexPad 2 0x22 ++ hexPad 2 (ident &&& 0xFF)).data
            = '0' :: '2' :: '2' :: '2' :: (hexPad 2 (ident &&& 0xFF)).data := rfl
        rw [h1, show "023E00".data = ['0', '2', '3', 'E', '0', '0'] from rfl] at hd
        simp at hd
    · exact absurd h (by simp)

theorem delay21_no_tp (s : UdsState) (service : Nat) :
    Ev.send "023E00" ∉ (delay21 s service).2 := by
  unfold delay21
  split <;> simp

theorem rbi_no_tp (service ident il : Nat) (hs2 : service = 0x21 ∨ service = 0x22) :
    ∀ (fuel : Nat) (s : UdsState) (script : List ReadEv),
      Ev.send "023E00" ∉ rbiTrace (read_by_id fuel s script service ident il) := by
  have hstep : ∀ (s : UdsState) (cmd : String),
      buildCmd service ident il = some cmd →
      Ev.send "023E00" ∉ (delay21 s service).2 ++ [Ev.send cmd] := by
    intro s cmd hc hmem
    rcases List.mem_append.mp hmem with h | h
    · exact delay21_no_tp s service h
    · exact buildCmd_ne_tp service ident il cmd hs2 hc
        ((Ev.send.injEq _ _).mp (List.mem_singleton.mp h)).symm
  intro fuel
  induction fuel with
  | zero =>
    intro s script
    cases hc : buildCmd service ident il with
    | none =>
      unfold read_by_id
      rw [hc]
      simp [rbiTrace]
    | some cmd =>
      unfold read_by_id
      rw [hc]
      dsimp only []
      split
      · exact fun h => delay21_no_tp s service h
      · split
        · exact hstep s cmd hc
        · exact hstep s cmd hc
        · split
          · split
            · exact hstep s cmd hc
            · split
              · exact hstep s cmd hc
              · split
                · simp [rbiTrace]
                · exact hstep s cmd hc
          · split
            · exact hstep s cmd hc
            · exact hstep s cmd hc
            · split
              · exact hstep s cmd hc
              · exact hstep s cmd hc
  | succ n ih =>
    intro s script
    cases hc : buildCmd service ident il with
    | none =>
      unfold read_by_id
      rw [hc]
      simp [rbiTrace]
    | some cmd =>
      unfold read_by_id
      rw [hc]
      dsimp only []
      split
      · exact fun h => delay21_no_tp s service h
      · split
        · exact hstep s cmd hc
        · exact hstep s cmd hc
        · split
          · split
            · exact hstep s cmd hc
            · split
              · exact hstep s cmd hc
              · split
                · split
                  · rename_i res s' r' tr' heq
                    have h2 : Ev.send "023E00" ∉ tr' := by
                      have h4 : Ev.send "023E00" ∉ rbiTrace (RbiOut.ok res s' r' tr') := by
                        rw [← heq]
                        exact ih _ _
                      simpa [rbiTrace] using h4
                    intro hmem
                    rcases List.mem_append.mp hmem with h3 | h3
                    · rcases List.mem_append.mp h3 with h4 | h4
                      · rcases List.mem_append.mp h4 with h5 | h5
                        · exact hstep s cmd hc h5
                        · simp [fcTrace] at h5
                      · simp at h4
                    · exact h2 h3
                  · rename_i s' r' tr' heq
                    have h2 : Ev.send "023E00" ∉ tr' := by
                      have h4 : Ev.send "023E00" ∉ rbiTrace (RbiOut.exn s' r' tr') := by
                        rw [← heq]
                        exact ih _ _
                      simpa [rbiTrace] using h4
                    intro hmem
                    rcases List.mem_append.mp hmem with h3 | h3
                    · rcases List.mem_append.mp h3 with h4 | h4
                      · rcases List.mem_append.mp h4 with h5 | h5
                        · exact hstep s cmd hc h5
                        · simp [fcTrace] at h5
                      · simp at h4
                    · exact h2 h3
                  · simp [rbiTrace]
                · exact hstep s cmd hc
          · split
            · exact hstep s cmd hc
            · exact hstep s cmd hc
            · split
              · exact hstep s cmd hc
              · exact hstep s cmd hc

/-- C9 (amended): when `read_field`'s UDS read returns, the TesterPresent
keep-alive is transmitted AFTER the UDS request, not before: the trace is
the read trace (which never contains `023E00`) followed by the
TesterPresent send, the latter emitted exactly when `tp_interval` has
elapsed since the last keep-alive at that point. -/
theorem C9_tp_after_read
    (fuel : Nat) (s : UdsState) (script : List ReadEv) (sid : String) (f : FieldD)
    (service ident : Nat)
    (res : Option (List Nat)) (sB : UdsState) (scrB : List ReadEv) (trB : List Ev)
    (hlook : s.fields.lookup sid = some f)
    (hreq : ¬(f.request_id = ""))
    (hrid : (strStartsWith (strUpper f.request_id) "22"
        || strStartsWith (strUpper f.request_id) "21") = true)
    (hphase : select_ensure_phase s script f = ⟨s, script, []⟩)
    (hsvc : parseHexString (String.mk ((strUpper f.request_id).data.take 2)) = some service)
    (hident : parseHexString (String.mk ((strUpper f.request_id).data.drop 2)) = some ident)
    (hs2 : service = 0x21 ∨ service = 0x22)
    (hread : read_by_id fuel s script service ident
        (if ((strUpper f.request_id).data.drop 2).length = 4 then 2 else 1)
      = RbiOut.ok res sB scrB trB)
    (hdec : ∀ r, res = some r → read_field_decode r f ≠ DecodeRes.exnB) :
    rfTrace (read_field fuel s script sid) = trB ++ (tester_present sB scrB).tr ∧
    (tester_present sB scrB).tr
      = (if sB.now - sB.last_tp < sB.tp_interval then [] else [Ev.send "023E00"]) ∧
    Ev.send "023E00" ∉ trB := by
  have htp : (tester_present sB scrB).tr
      = (if sB.now - sB.last_tp < sB.tp_interval then [] else [Ev.send "023E00"]) := by
    unfold tester_present
    split
    · rfl
    · cases scrB with
      | nil => rfl
      | cons e r => cases e <;> rfl
  have hno : Ev.send "023E00" ∉ trB := by
    have h2 := rbi_no_tp service ident
      (if ((strUpper f.request_id).data.drop 2).length = 4 then 2 else 1) hs2 fuel s script
    rw [hread] at h2
    simpa [rbiTrace] using h2
  refine ⟨?_, htp, hno⟩
  unfold read_field
  rw [hlook]
  simp only [if_neg hreq, hrid, Bool.true_eq_false, if_false, hphase, hsvc, hident, hread]
  cases res with
  | none => simp [rfTrace]
  | some r =>
    cases hd : read_field_decode r f with
    | noneV => simp [rfTrace, hd]
    | exnB => exact absurd hd (hdec r rfl)
    | val q => simp [rfTrace, hd]

theorem C9_tp_after_read_witness :
    rfTrace (read_field 1 sWit [ReadEv.lines ["610105"] 0] "f1")
      = [Ev.send "022101"] ++ (tester_present {sWit with now := 100120000, last_tuple := some (0x7E4, 0x21, 1), last_resp := some [0x61, 0x01, 0x05], last_resp_ts := 100120000} []).tr ∧
    (tester_present {sWit with now := 100120000, last_tuple := some (0x7E4, 0x21, 1), last_resp := some [0x61, 0x01, 0x05], last_resp_ts := 100120000} []).tr
      = (if ({sWit with now := 100120000, last_tuple := some (0x7E4, 0x21, 1), last_resp := some [0x61, 0x01, 0x05], last_resp_ts := 100120000} : UdsState).now - ({sWit with now := 100120000, last_tuple := some (0x7E4, 0x21, 1), last_resp := some [0x61, 0x01, 0x05], last_resp_ts := 100120000} : UdsState).last_tp < ({sWit with now := 100120000, last_tuple := some (0x7E4, 0x21, 1), last_resp := some [0x61, 0x01, 0x05], last_resp_ts := 100120000} : UdsState).tp_interval then [] else [Ev.send "023E00"]) ∧
    Ev.send "023E00" ∉ [Ev.send "022101"] :=
  C9_tp_after_read 1 sWit [ReadEv.lines ["610105"] 0] "f1" fld21 0x21 1
    (some [0x61, 0x01, 0x05])
    {sWit with now := 100120000, last_tuple := some (0x7E4, 0x21, 1), last_resp := some [0x61, 0x01, 0x05], last_resp_ts := 100120000}
    [] [Ev.send "022101"]
    (by decide) (by decide) (by decide) (by decide) (by decide) (by decide) (Or.inl rfl)
    (by decide) (fun r hr => by injection hr with h; subst h; decide)
